import Mathlib

/-!
Verification of the Atlas interactive map viewport (`src/Atlas.js`) against its
natural-language specification.

The development shallowly embeds the claim-relevant parts of the source:

* JavaScript floating-point arithmetic on coordinates, zooms and bearings is
  modelled over `ℝ` (for the trigonometric projection / viewport math) and
  over `ℚ` (for the purely rational tile-index / inertia computations).
* The JavaScript remainder operator `%` (truncated division, sign of the
  dividend) is modelled by `jsRem`; the source idiom `((x % s) + s) % s` is
  `jsWrap`.
* Stateful code (tile cache, load bookkeeping, error handlers) is modelled by
  explicit state-passing functions on a `LayerState` record.
-/

namespace Atlas

/-! ### The JavaScript `%` operator

`x % s` in JavaScript is the remainder of truncated division: it has the sign
of the dividend `x`.  `jsTrunc` is JavaScript's implicit truncation toward
zero, `jsRem x s = x - s * trunc (x / s)` the remainder, and
`jsWrap x s = ((x % s) + s) % s` the non-negative wrap idiom used by
`wrapDeltaLon` (src/Atlas.js:71) and `_getTileUrl` (src/Atlas.js:399). -/

variable {α : Type} [LinearOrderedField α] [FloorRing α]

/-- Truncation toward zero, as applied by JavaScript's `%`. -/
def jsTrunc (x : α) : ℤ := if 0 ≤ x then ⌊x⌋ else ⌈x⌉

/-- JavaScript's `x % s` (remainder of truncated division). -/
def jsRem (x s : α) : α := x - s * jsTrunc (x / s)

/-- The JavaScript idiom `((x % s) + s) % s`. -/
def jsWrap (x s : α) : α := jsRem (jsRem x s + s) s

theorem jsTrunc_of_nonneg {x : α} (h : 0 ≤ x) : jsTrunc x = ⌊x⌋ := if_pos h

theorem jsTrunc_of_neg {x : α} (h : x < 0) : jsTrunc x = ⌈x⌉ := if_neg (not_le.mpr h)

theorem jsRem_eq_of_nonneg {x s : α} (hx : 0 ≤ x) (hs : 0 < s) :
    jsRem x s = x - s * ⌊x / s⌋ := by
  unfold jsRem
  rw [jsTrunc_of_nonneg (div_nonneg hx hs.le)]

theorem floorMod_nonneg (x : α) {s : α} (hs : 0 < s) :
    0 ≤ x - s * ⌊x / s⌋ := by
  have h1 : s * (⌊x / s⌋ : α) ≤ s * (x / s) :=
    mul_le_mul_of_nonneg_left (Int.floor_le _) hs.le
  have h2 : s * (x / s) = x := by field_simp
  linarith

theorem floorMod_lt (x : α) {s : α} (hs : 0 < s) :
    x - s * ⌊x / s⌋ < s := by
  have h1 : s * (x / s) < s * ((⌊x / s⌋ : α) + 1) :=
    (mul_lt_mul_left hs).mpr (Int.lt_floor_add_one _)
  have h2 : s * (x / s) = x := by field_simp
  nlinarith

/-- Uniqueness of the floor modulus: any `w ∈ [0, s)` congruent to `x` mod `s`
is `x - s * ⌊x / s⌋`. -/
theorem floorMod_unique {x w s : α} (hs : 0 < s) (h0 : 0 ≤ w) (h1 : w < s)
    (k : ℤ) (hk : x - w = s * k) : x - s * ⌊x / s⌋ = w := by
  have hxw : x = s * k + w := by linarith
  have hdiv : x / s = w / s + k := by
    rw [hxw]
    field_simp
    ring
  have hfl : ⌊x / s⌋ = k := by
    rw [hdiv, Int.floor_add_int, Int.floor_eq_zero_iff.mpr
      ⟨div_nonneg h0 hs.le, (div_lt_one hs).mpr h1⟩]
    ring
  rw [hfl]
  linarith

theorem jsRem_lt (x : α) {s : α} (hs : 0 < s) : jsRem x s < s := by
  rcases le_or_lt 0 x with hx | hx
  · rw [jsRem_eq_of_nonneg hx hs]
    exact floorMod_lt x hs
  · have hrem : jsRem x s = x - s * ⌈x / s⌉ := by
      unfold jsRem
      rw [jsTrunc_of_neg (div_neg_of_neg_of_pos hx hs)]
    have hle : x / s ≤ (⌈x / s⌉ : α) := Int.le_ceil _
    have hmul : s * (x / s) ≤ s * (⌈x / s⌉ : α) := mul_le_mul_of_nonneg_left hle hs.le
    have hxs : s * (x / s) = x := by field_simp
    rw [hrem]
    linarith

theorem neg_lt_jsRem (x : α) {s : α} (hs : 0 < s) : -s < jsRem x s := by
  rcases le_or_lt 0 x with hx | hx
  · rw [jsRem_eq_of_nonneg hx hs]
    have := floorMod_nonneg x hs
    linarith
  · have hrem : jsRem x s = x - s * ⌈x / s⌉ := by
      unfold jsRem
      rw [jsTrunc_of_neg (div_neg_of_neg_of_pos hx hs)]
    have hlt : (⌈x / s⌉ : α) < x / s + 1 := Int.ceil_lt_add_one _
    have hmul : s * (⌈x / s⌉ : α) < s * (x / s + 1) := (mul_lt_mul_left hs).mpr hlt
    have hxs : s * (x / s) = x := by field_simp
    rw [hrem]
    nlinarith

/-- Each `jsRem` subtracts an integer multiple of `s`. -/
theorem jsRem_sub_int (x s : α) : x - jsRem x s = s * (jsTrunc (x / s) : ℤ) := by
  unfold jsRem
  ring

/-- `((x % s) + s) % s` computes the mathematical (floor) modulus. -/
theorem jsWrap_eq (x : α) {s : α} (hs : 0 < s) :
    jsWrap x s = x - s * ⌊x / s⌋ := by
  have hpos : 0 < jsRem x s + s := by linarith [neg_lt_jsRem x hs]
  have hw : jsWrap x s = (jsRem x s + s) - s * ⌊(jsRem x s + s) / s⌋ := by
    unfold jsWrap
    exact jsRem_eq_of_nonneg hpos.le hs
  have h0 : 0 ≤ jsWrap x s := by
    rw [hw]
    exact floorMod_nonneg _ hs
  have h1 : jsWrap x s < s := by
    rw [hw]
    exact floorMod_lt _ hs
  have hk : x - jsWrap x s =
      s * ((jsTrunc (x / s) + ⌊(jsRem x s + s) / s⌋ - 1 : ℤ) : α) := by
    rw [hw]
    unfold jsRem jsTrunc
    push_cast
    ring
  have := floorMod_unique hs h0 h1 _ hk
  linarith

theorem jsWrap_nonneg (x : α) {s : α} (hs : 0 < s) : 0 ≤ jsWrap x s := by
  rw [jsWrap_eq x hs]; exact floorMod_nonneg x hs

theorem jsWrap_lt (x : α) {s : α} (hs : 0 < s) : jsWrap x s < s := by
  rw [jsWrap_eq x hs]; exact floorMod_lt x hs

/-! ### Constants (src/Atlas.js:1-23) -/

noncomputable section RealModel

open Real

/-- `EARTH_RADIUS = 6378137` (src/Atlas.js:2). -/
def EARTH_RADIUS : ℝ := 6378137

/-- `MAX_LATITUDE = 85.05112878` (src/Atlas.js:4). -/
def MAX_LATITUDE : ℝ := 85.05112878

/-- `TILE_SIZE = 256` (src/Atlas.js:6). -/
def TILE_SIZE : ℝ := 256

/-- `DEG2RAD = Math.PI / 180` (src/Atlas.js:66). -/
def DEG2RAD : ℝ := π / 180

/-- `RAD2DEG = 180 / Math.PI` (src/Atlas.js:65). -/
def RAD2DEG : ℝ := 180 / π

/-! ### Utility functions (src/Atlas.js:69-76, 221-234) -/

/-- JavaScript's `Math.atan2(y, x)`, modelled as the complex argument of
`x + y·i` (the two agree on every non-zero vector; all uses here have
`(x, y) = (cos r, sin r) ≠ (0, 0)`). -/
def atan2 (y x : ℝ) : ℝ := Complex.arg (x + y * Complex.I)

/-- `normalizeAngle = rad => Math.atan2(Math.sin(rad), Math.cos(rad))`
(src/Atlas.js:69). -/
def normalizeAngle (rad : ℝ) : ℝ := atan2 (Real.sin rad) (Real.cos rad)

/-- `shortestAngleDiff = (from, to) => normalizeAngle(to - from)`
(src/Atlas.js:70). -/
def shortestAngleDiff (f t : ℝ) : ℝ := normalizeAngle (t - f)

/-- `wrapDeltaLon = delta => (((delta + 180) % 360) + 360) % 360 - 180`
(src/Atlas.js:71). -/
def wrapDeltaLon (delta : ℝ) : ℝ := jsWrap (delta + 180) 360 - 180

/-- `rot = (x, y, ang)` rotation helper (src/Atlas.js:72-76). -/
def rot (x y ang : ℝ) : ℝ × ℝ :=
  (x * Real.cos ang - y * Real.sin ang, x * Real.sin ang + y * Real.cos ang)

/-- `GISUtils.wrapLongitude` (src/Atlas.js:221-225): the loops
`while (l > 180) l -= 360; while (l < -180) l += 360;` subtract (resp. add)
`360` exactly `⌈(l - 180)/360⌉` (resp. `⌈(-180 - l)/360⌉`) times; this is the
loop's closed form (the recurrence is proved as `wrapLongitude_sub_360` and
`wrapLongitude_add_360` below). -/
def wrapLongitude (l : ℝ) : ℝ :=
  if 180 < l then l - 360 * ⌈(l - 180) / 360⌉
  else if l < -180 then l + 360 * ⌈(-180 - l) / 360⌉
  else l

/-- `GISUtils.clampLatitude` (src/Atlas.js:232-234). -/
def clampLatitude (lat : ℝ) : ℝ := max (-85.05112878) (min 85.05112878 lat)

theorem wrapLongitude_eq_self {l : ℝ} (h1 : -180 ≤ l) (h2 : l ≤ 180) :
    wrapLongitude l = l := by
  unfold wrapLongitude
  rw [if_neg (not_lt.mpr h2), if_neg (not_lt.mpr h1)]

/-- One iteration of the first `while` loop of `wrapLongitude`. -/
theorem wrapLongitude_sub_360 {l : ℝ} (h : 180 < l) :
    wrapLongitude l = wrapLongitude (l - 360) := by
  rcases lt_or_le 180 (l - 360) with h' | h'
  · unfold wrapLongitude
    rw [if_pos h, if_pos h']
    have hc : ⌈(l - 180) / 360⌉ = ⌈(l - 360 - 180) / 360⌉ + 1 := by
      have harg : (l - 180) / 360 = (l - 360 - 180) / 360 + 1 := by ring
      rw [harg, Int.ceil_add_one]
    rw [hc]
    push_cast
    ring
  · have hge : (-180 : ℝ) ≤ l - 360 := by linarith
    unfold wrapLongitude
    rw [if_pos h, if_neg (not_lt.mpr h'), if_neg (not_lt.mpr hge)]
    have hc : ⌈(l - 180) / 360⌉ = 1 := by
      apply Int.ceil_eq_iff.mpr
      constructor
      · push_cast
        linarith [div_pos (by linarith : (0:ℝ) < l - 180) (by norm_num : (0:ℝ) < 360)]
      · push_cast
        rw [div_le_one (by norm_num : (0:ℝ) < 360)]
        linarith
    rw [hc]
    norm_num

/-- One iteration of the second `while` loop of `wrapLongitude`. -/
theorem wrapLongitude_add_360 {l : ℝ} (h : l < -180) :
    wrapLongitude l = wrapLongitude (l + 360) := by
  rcases lt_or_le (l + 360) (-180) with h' | h'
  · unfold wrapLongitude
    rw [if_neg (by linarith), if_pos h, if_neg (by linarith), if_pos h']
    have hc : ⌈(-180 - l) / 360⌉ = ⌈(-180 - (l + 360)) / 360⌉ + 1 := by
      have harg : (-180 - l) / 360 = (-180 - (l + 360)) / 360 + 1 := by ring
      rw [harg, Int.ceil_add_one]
    rw [hc]
    push_cast
    ring
  · have hle : l + 360 ≤ 180 := by linarith
    unfold wrapLongitude
    rw [if_neg (by linarith), if_pos h, if_neg (not_lt.mpr hle),
      if_neg (not_lt.mpr h')]
    have hc : ⌈(-180 - l) / 360⌉ = 1 := by
      apply Int.ceil_eq_iff.mpr
      constructor
      · push_cast
        linarith [div_pos (by linarith : (0:ℝ) < -180 - l) (by norm_num : (0:ℝ) < 360)]
      · push_cast
        rw [div_le_one (by norm_num : (0:ℝ) < 360)]
        linarith
    rw [hc]
    norm_num

/-- The result of `wrapLongitude` lies in the closed interval `[-180, 180]`
(note: both endpoints are reachable). -/
theorem wrapLongitude_mem (l : ℝ) :
    wrapLongitude l ∈ Set.Icc (-180 : ℝ) 180 := by
  unfold wrapLongitude
  split_ifs with h1 h2
  · have hle : (l - 180) / 360 ≤ (⌈(l - 180) / 360⌉ : ℝ) := Int.le_ceil _
    have hlt : (⌈(l - 180) / 360⌉ : ℝ) < (l - 180) / 360 + 1 := Int.ceil_lt_add_one _
    constructor <;> nlinarith
  · have hle : (-180 - l) / 360 ≤ (⌈(-180 - l) / 360⌉ : ℝ) := Int.le_ceil _
    have hlt : (⌈(-180 - l) / 360⌉ : ℝ) < (-180 - l) / 360 + 1 := Int.ceil_lt_add_one _
    constructor <;> nlinarith
  · exact ⟨by linarith, by linarith⟩

theorem clampLatitude_mem (lat : ℝ) :
    clampLatitude lat ∈ Set.Icc (-85.05112878 : ℝ) 85.05112878 := by
  unfold clampLatitude
  constructor
  · exact le_max_left _ _
  · exact max_le (by norm_num) (min_le_left _ _)

theorem clampLatitude_eq_self {lat : ℝ} (h1 : -85.05112878 ≤ lat)
    (h2 : lat ≤ 85.05112878) : clampLatitude lat = lat := by
  unfold clampLatitude
  rw [min_eq_right h2, max_eq_right h1]

/-- Closed form for `normalizeAngle`: it shifts its argument by the unique
integer multiple of `2π` landing in `(-π, π]`. -/
theorem normalizeAngle_eq (r : ℝ) :
    normalizeAngle r = r - 2 * π * ⌈(r - π) / (2 * π)⌉ := by
  have hπ : (0 : ℝ) < π := Real.pi_pos
  set k := ⌈(r - π) / (2 * π)⌉ with hk
  have h2π : (0 : ℝ) < 2 * π := by linarith
  have hle : (r - π) / (2 * π) ≤ (k : ℝ) := Int.le_ceil _
  have hlt : (k : ℝ) < (r - π) / (2 * π) + 1 := Int.ceil_lt_add_one _
  have hmul_le : r - π ≤ 2 * π * k := by
    have := mul_le_mul_of_nonneg_left hle h2π.le
    calc r - π = 2 * π * ((r - π) / (2 * π)) := by field_simp
    _ ≤ 2 * π * k := this
  have hmul_lt : 2 * π * (k : ℝ) < r + π := by
    have := (mul_lt_mul_left h2π).mpr hlt
    calc 2 * π * (k : ℝ) < 2 * π * ((r - π) / (2 * π) + 1) := this
    _ = r - π + 2 * π := by field_simp
    _ = r + π := by ring
  set θ := r - 2 * π * k with hθ
  have hθ_mem : θ ∈ Set.Ioc (-π) π := ⟨by rw [hθ]; linarith, by rw [hθ]; linarith⟩
  have hcos : Real.cos r = Real.cos θ := by
    have : r = θ + k * (2 * π) := by rw [hθ]; ring
    rw [this, Real.cos_add_int_mul_two_pi]
  have hsin : Real.sin r = Real.sin θ := by
    have : r = θ + k * (2 * π) := by rw [hθ]; ring
    rw [this, Real.sin_add_int_mul_two_pi]
  unfold normalizeAngle atan2
  rw [hcos, hsin, Complex.ofReal_cos, Complex.ofReal_sin]
  exact Complex.arg_cos_add_sin_mul_I hθ_mem

theorem normalizeAngle_mem (r : ℝ) : normalizeAngle r ∈ Set.Ioc (-π) π := by
  unfold normalizeAngle atan2
  exact Complex.arg_mem_Ioc _

/-- `normalizeAngle` preserves cosine. -/
theorem cos_normalizeAngle (r : ℝ) : Real.cos (normalizeAngle r) = Real.cos r := by
  rw [normalizeAngle_eq]
  have : r - 2 * π * ⌈(r - π) / (2 * π)⌉ = r + (-⌈(r - π) / (2 * π)⌉ : ℤ) * (2 * π) := by
    push_cast
    ring
  rw [this, Real.cos_add_int_mul_two_pi]

/-- `normalizeAngle` preserves sine. -/
theorem sin_normalizeAngle (r : ℝ) : Real.sin (normalizeAngle r) = Real.sin r := by
  rw [normalizeAngle_eq]
  have : r - 2 * π * ⌈(r - π) / (2 * π)⌉ = r + (-⌈(r - π) / (2 * π)⌉ : ℤ) * (2 * π) := by
    push_cast
    ring
  rw [this, Real.sin_add_int_mul_two_pi]

theorem normalizeAngle_zero : normalizeAngle 0 = 0 := by
  rw [normalizeAngle_eq]
  have hπ : (0 : ℝ) < π := Real.pi_pos
  have hc : ⌈(0 - π) / (2 * π)⌉ = 0 := by
    apply Int.ceil_eq_iff.mpr
    constructor
    · push_cast
      rw [lt_div_iff₀ (by linarith : (0:ℝ) < 2 * π)]
      linarith
    · push_cast
      rw [div_le_iff₀ (by linarith : (0:ℝ) < 2 * π)]
      linarith
  rw [hc]
  norm_num

/-! ### The Web Mercator projection (src/Atlas.js:117-192) -/

/-- A geographic coordinate (`{lat, lon}` objects in the source). -/
structure LatLng where
  lat : ℝ
  lon : ℝ

/-- A projected / tile-space point (`{x, y}` objects in the source). -/
structure Pt where
  x : ℝ
  y : ℝ

/-- `WebMercatorProjection.project` (src/Atlas.js:132-141): latitude is
clamped to the Mercator limit before use. -/
def project (p : LatLng) : Pt :=
  let lat := max (min MAX_LATITUDE p.lat) (-MAX_LATITUDE)
  let s := Real.sin (lat * DEG2RAD)
  { x := EARTH_RADIUS * p.lon * DEG2RAD
    y := EARTH_RADIUS * Real.log ((1 + s) / (1 - s)) / 2 }

/-- `WebMercatorProjection.unproject` (src/Atlas.js:150-156). -/
def unproject (pt : Pt) : LatLng :=
  { lon := pt.x / EARTH_RADIUS * RAD2DEG
    lat := (2 * Real.arctan (Real.exp (pt.y / EARTH_RADIUS)) - π / 2) * RAD2DEG }

/-- `WebMercatorProjection.latLngToTile` (src/Atlas.js:167-174).  All call
sites relevant to the claims pass an integer (`Math.floor`ed) zoom, so the
zoom parameter is `ℤ` and `Math.pow(2, zoom)` is `2 ^ zoom : ℝ`. -/
def latLngToTile (p : LatLng) (zoom : ℤ) : Pt :=
  let scale : ℝ := 2 ^ zoom
  let projected := project p
  { x := (projected.x + π * EARTH_RADIUS) / (2 * π * EARTH_RADIUS) * scale
    y := (π * EARTH_RADIUS - projected.y) / (2 * π * EARTH_RADIUS) * scale }

/-- `WebMercatorProjection.tileToLatLng` (src/Atlas.js:184-191). -/
def tileToLatLng (x y : ℝ) (zoom : ℤ) : LatLng :=
  let scale : ℝ := 2 ^ zoom
  unproject
    { x := x / scale * 2 * π * EARTH_RADIUS - π * EARTH_RADIUS
      y := π * EARTH_RADIUS - y / scale * 2 * π * EARTH_RADIUS }

/-! ### Core analytic identities

`project` and `unproject` are mutually inverse through the Gudermannian-type
identity `(1 + sin θ)/(1 - sin θ) = tan² (π/4 + θ/2)`. -/

/-- Forward identity, valid for every real `t`: un-projecting `t` and
re-applying the Mercator formula returns `t`. -/
theorem mercator_log_sin_eq (t : ℝ) :
    Real.log ((1 + Real.sin (2 * Real.arctan (Real.exp t) - π / 2)) /
      (1 - Real.sin (2 * Real.arctan (Real.exp t) - π / 2))) / 2 = t := by
  set a := Real.arctan (Real.exp t) with ha
  have ha_pos : 0 < a := by
    rw [ha, ← Real.arctan_zero]
    exact Real.arctan_strictMono (Real.exp_pos t)
  have ha_lt : a < π / 2 := Real.arctan_lt_pi_div_two _
  have hcos : 0 < Real.cos a := Real.cos_arctan_pos _
  have hsin_eq : Real.sin (2 * a - π / 2) = -Real.cos (2 * a) := by
    rw [Real.sin_sub_pi_div_two]
  have hpyth := Real.sin_sq_add_cos_sq a
  have h1p : 1 + Real.sin (2 * a - π / 2) = 2 * Real.sin a ^ 2 := by
    rw [hsin_eq, Real.cos_two_mul']
    linarith
  have h1m : 1 - Real.sin (2 * a - π / 2) = 2 * Real.cos a ^ 2 := by
    rw [hsin_eq, Real.cos_two_mul']
    linarith
  rw [h1p, h1m]
  have hratio : 2 * Real.sin a ^ 2 / (2 * Real.cos a ^ 2) = Real.exp t ^ 2 := by
    have htan : Real.sin a / Real.cos a = Real.exp t := by
      rw [← Real.tan_eq_sin_div_cos, ha, Real.tan_arctan]
    calc 2 * Real.sin a ^ 2 / (2 * Real.cos a ^ 2)
        = (Real.sin a / Real.cos a) ^ 2 := by
          rw [div_pow]
          field_simp
          ring
    _ = Real.exp t ^ 2 := by rw [htan]
  rw [hratio, ← Real.exp_nat_mul]
  rw [Real.log_exp]
  push_cast
  ring

/-- Inverse identity: for `θ ∈ (-π/2, π/2)`, applying the Mercator formula
and un-projecting returns `θ`. -/
theorem mercator_arctan_exp_eq {θ : ℝ} (h1 : -(π / 2) < θ) (h2 : θ < π / 2) :
    2 * Real.arctan (Real.exp (Real.log ((1 + Real.sin θ) / (1 - Real.sin θ)) / 2)) -
      π / 2 = θ := by
  have hπ : (0 : ℝ) < π := Real.pi_pos
  set a := π / 4 + θ / 2 with ha
  have ha_pos : 0 < a := by rw [ha]; linarith
  have ha_lt : a < π / 2 := by rw [ha]; linarith
  have hcos : 0 < Real.cos a := Real.cos_pos_of_mem_Ioo ⟨by linarith, ha_lt⟩
  have htan_pos : 0 < Real.tan a := Real.tan_pos_of_pos_of_lt_pi_div_two ha_pos ha_lt
  have hsin_eq : Real.sin θ = -Real.cos (2 * a) := by
    have h2a : 2 * a = π / 2 - -θ := by rw [ha]; ring
    rw [h2a, Real.cos_pi_div_two_sub, Real.sin_neg]
    ring
  have hpyth := Real.sin_sq_add_cos_sq a
  have h1p : 1 + Real.sin θ = 2 * Real.sin a ^ 2 := by
    rw [hsin_eq, Real.cos_two_mul']
    linarith
  have h1m : 1 - Real.sin θ = 2 * Real.cos a ^ 2 := by
    rw [hsin_eq, Real.cos_two_mul']
    linarith
  have hratio : (1 + Real.sin θ) / (1 - Real.sin θ) = Real.tan a ^ 2 := by
    rw [h1p, h1m, Real.tan_eq_sin_div_cos, div_pow]
    field_simp
    ring
  rw [hratio]
  have hlog : Real.log (Real.tan a ^ 2) / 2 = Real.log (Real.tan a) := by
    rw [Real.log_pow]
    push_cast
    ring
  rw [hlog, Real.exp_log htan_pos, Real.arctan_tan (by linarith) ha_lt, ha]
  ring

/-- `unproject` is a left inverse of `project` on latitudes within the
Mercator limit. -/
theorem unproject_project {p : LatLng} (h1 : -MAX_LATITUDE ≤ p.lat)
    (h2 : p.lat ≤ MAX_LATITUDE) : unproject (project p) = p := by
  have hπ : (0 : ℝ) < π := Real.pi_pos
  have hR : EARTH_RADIUS ≠ 0 := by unfold EARTH_RADIUS; norm_num
  have hclamp : max (min MAX_LATITUDE p.lat) (-MAX_LATITUDE) = p.lat := by
    rw [min_eq_right h2, max_eq_left h1]
  have hθ1 : -(π / 2) < p.lat * DEG2RAD := by
    unfold MAX_LATITUDE at h1
    unfold DEG2RAD
    nlinarith
  have hθ2 : p.lat * DEG2RAD < π / 2 := by
    unfold MAX_LATITUDE at h2
    unfold DEG2RAD
    nlinarith
  unfold project unproject
  simp only [hclamp]
  have hy : EARTH_RADIUS * Real.log ((1 + Real.sin (p.lat * DEG2RAD)) /
      (1 - Real.sin (p.lat * DEG2RAD))) / 2 / EARTH_RADIUS =
      Real.log ((1 + Real.sin (p.lat * DEG2RAD)) /
      (1 - Real.sin (p.lat * DEG2RAD))) / 2 := by
    field_simp
    ring
  rw [LatLng.mk.injEq]
  constructor
  · rw [hy]
    have := mercator_arctan_exp_eq hθ1 hθ2
    rw [this]
    unfold DEG2RAD RAD2DEG
    field_simp
  · unfold DEG2RAD RAD2DEG
    field_simp
    ring

/-- `project` is a left inverse of `unproject` whenever the resulting
latitude is within the Mercator limit (so that the clamp is inactive). -/
theorem project_unproject {pt : Pt} (h1 : -MAX_LATITUDE ≤ (unproject pt).lat)
    (h2 : (unproject pt).lat ≤ MAX_LATITUDE) : project (unproject pt) = pt := by
  have hπ : (0 : ℝ) < π := Real.pi_pos
  have hR : EARTH_RADIUS ≠ 0 := by unfold EARTH_RADIUS; norm_num
  have hclamp : max (min MAX_LATITUDE (unproject pt).lat) (-MAX_LATITUDE) =
      (unproject pt).lat := by
    rw [min_eq_right h2, max_eq_left h1]
  unfold project
  simp only [hclamp]
  have hlat : (unproject pt).lat * DEG2RAD =
      2 * Real.arctan (Real.exp (pt.y / EARTH_RADIUS)) - π / 2 := by
    unfold unproject DEG2RAD RAD2DEG
    field_simp
    ring
  rw [Pt.mk.injEq]
  constructor
  · unfold unproject DEG2RAD RAD2DEG
    field_simp
    ring
  · rw [hlat]
    have hlog := mercator_log_sin_eq (pt.y / EARTH_RADIUS)
    unfold EARTH_RADIUS at hlog ⊢
    field_simp at hlog ⊢
    linarith

/-- `tileToLatLng` inverts `latLngToTile` on latitudes within the Mercator
limit. -/
theorem tileToLatLng_latLngToTile {p : LatLng} (z : ℤ)
    (h1 : -MAX_LATITUDE ≤ p.lat) (h2 : p.lat ≤ MAX_LATITUDE) :
    tileToLatLng (latLngToTile p z).x (latLngToTile p z).y z = p := by
  have hπ : π ≠ 0 := Real.pi_ne_zero
  have hR : EARTH_RADIUS ≠ 0 := by unfold EARTH_RADIUS; norm_num
  have hs : ((2 : ℝ) ^ z) ≠ 0 := zpow_ne_zero z two_ne_zero
  have hpt : (⟨(latLngToTile p z).x / ((2 : ℝ) ^ z) * 2 * π * EARTH_RADIUS -
      π * EARTH_RADIUS,
      π * EARTH_RADIUS - (latLngToTile p z).y / ((2 : ℝ) ^ z) * 2 * π *
      EARTH_RADIUS⟩ : Pt) = project p := by
    dsimp only [latLngToTile]
    rw [Pt.mk.injEq]
    constructor
    · field_simp
      ring
    · field_simp
      ring
  dsimp only [tileToLatLng]
  rw [hpt]
  exact unproject_project h1 h2

/-- `latLngToTile` inverts `tileToLatLng` whenever the intermediate latitude
stays within the Mercator limit (the clamp in `project` is inactive). -/
theorem latLngToTile_tileToLatLng (X Y : ℝ) (z : ℤ)
    (h1 : -MAX_LATITUDE ≤ (tileToLatLng X Y z).lat)
    (h2 : (tileToLatLng X Y z).lat ≤ MAX_LATITUDE) :
    latLngToTile (tileToLatLng X Y z) z = ⟨X, Y⟩ := by
  have hπ : π ≠ 0 := Real.pi_ne_zero
  have hR : EARTH_RADIUS ≠ 0 := by unfold EARTH_RADIUS; norm_num
  have hs : ((2 : ℝ) ^ z) ≠ 0 := zpow_ne_zero z two_ne_zero
  have hproj : project (tileToLatLng X Y z) =
      ⟨X / ((2 : ℝ) ^ z) * 2 * π * EARTH_RADIUS - π * EARTH_RADIUS,
       π * EARTH_RADIUS - Y / ((2 : ℝ) ^ z) * 2 * π * EARTH_RADIUS⟩ := by
    have := @project_unproject
      ⟨X / ((2 : ℝ) ^ z) * 2 * π * EARTH_RADIUS - π * EARTH_RADIUS,
       π * EARTH_RADIUS - Y / ((2 : ℝ) ^ z) * 2 * π * EARTH_RADIUS⟩
    dsimp only [tileToLatLng] at h1 h2 ⊢
    exact this h1 h2
  dsimp only [latLngToTile]
  rw [hproj, Pt.mk.injEq]
  constructor
  · field_simp
    ring
  · field_simp
    ring

/-! ### The viewport (center, zoom, bearing) and its transforms
(src/Atlas.js:3384-3452) -/

/-- The mutable viewport state of the `Atlas` class: `this.center`,
`this.zoom`, `this.bearing`. -/
structure View where
  center : LatLng
  zoom : ℝ
  bearing : ℝ

/-- The tile-space point `tpt` computed by `Atlas.screenToLatLon`
(src/Atlas.js:3387-3392): tile center plus the de-rotated anchor offset. -/
def anchorTile (w h : ℝ) (S : View) (ax ay : ℝ) : Pt :=
  let zInt : ℤ := ⌊S.zoom⌋
  let ts : ℝ := TILE_SIZE * (2 : ℝ) ^ (S.zoom - (zInt : ℝ))
  let ct := latLngToTile S.center zInt
  let v := rot ((ax - w / 2) / ts) ((ay - h / 2) / ts) (-S.bearing)
  ⟨ct.x + v.1, ct.y + v.2⟩

/-- `Atlas.screenToLatLon` (src/Atlas.js:3384-3398), with the canvas size
`w × h` (CSS pixels, `canvas.width / dpr` in the source) passed explicitly.
`ts = TILE_SIZE * Math.pow(2, zoom - zInt)` uses the real power. -/
def screenToLatLon (w h : ℝ) (S : View) (ax ay : ℝ) : LatLng :=
  let ll := tileToLatLng (anchorTile w h S ax ay).x (anchorTile w h S ax ay).y
    ⌊S.zoom⌋
  { lat := clampLatitude ll.lat, lon := wrapLongitude ll.lon }

/-- The tile-space center computed inside `Atlas.applyZoomRotateAbout`
(src/Atlas.js:3440-3444, the `ctNew` value), exposed as its own definition so
that the no-clamp hypotheses of the anchored-zoom theorem can refer to it. -/
def azrCtNew (w h minZoom maxZoom : ℝ) (S : View) (ax ay newZoom newBearing : ℝ) :
    Pt :=
  let nz := max minZoom (min maxZoom newZoom)
  let zInt : ℤ := ⌊nz⌋
  let ts : ℝ := TILE_SIZE * (2 : ℝ) ^ (nz - (zInt : ℝ))
  let currAnchorLL := screenToLatLon w h S ax ay
  let Ptile := latLngToTile currAnchorLL zInt
  let v := rot ((ax - w / 2) / ts) ((ay - h / 2) / ts) (-newBearing)
  ⟨Ptile.x - v.1, Ptile.y - v.2⟩

/-- The geographic center `applyZoomRotateAbout` derives from `ctNew`
before clamping/wrapping (src/Atlas.js:3445). -/
def azrNewCenterRaw (w h minZoom maxZoom : ℝ) (S : View)
    (ax ay newZoom newBearing : ℝ) : LatLng :=
  tileToLatLng (azrCtNew w h minZoom maxZoom S ax ay newZoom newBearing).x
    (azrCtNew w h minZoom maxZoom S ax ay newZoom newBearing).y
    ⌊max minZoom (min maxZoom newZoom)⌋

/-- `Atlas.applyZoomRotateAbout` (src/Atlas.js:3432-3452), in the
`anchorLL = null` branch used by the claims: the anchor geocoordinate is
captured from the current state via `screenToLatLon`.  `minZoom`/`maxZoom`
are the current base layer's limits. -/
def applyZoomRotateAbout (w h minZoom maxZoom : ℝ) (S : View)
    (ax ay newZoom newBearing : ℝ) : View :=
  let nz := max minZoom (min maxZoom newZoom)
  let newCenter := azrNewCenterRaw w h minZoom maxZoom S ax ay newZoom newBearing
  { center := { lat := clampLatitude newCenter.lat
                lon := wrapLongitude newCenter.lon }
    zoom := nz
    bearing := normalizeAngle newBearing }

/-- Rotating by a normalized angle equals rotating by the original angle. -/
theorem rot_neg_normalizeAngle (x y b : ℝ) :
    rot x y (-normalizeAngle b) = rot x y (-b) := by
  unfold rot
  rw [Real.cos_neg, Real.sin_neg, Real.cos_neg, Real.sin_neg,
    cos_normalizeAngle, sin_normalizeAngle]

theorem screenToLatLon_lat_ge (w h : ℝ) (S : View) (ax ay : ℝ) :
    -MAX_LATITUDE ≤ (screenToLatLon w h S ax ay).lat := by
  have h := clampLatitude_mem
    (tileToLatLng (anchorTile w h S ax ay).x (anchorTile w h S ax ay).y
      ⌊S.zoom⌋).lat
  unfold MAX_LATITUDE
  exact h.1

theorem screenToLatLon_lat_le (w h : ℝ) (S : View) (ax ay : ℝ) :
    (screenToLatLon w h S ax ay).lat ≤ MAX_LATITUDE := by
  have h := clampLatitude_mem
    (tileToLatLng (anchorTile w h S ax ay).x (anchorTile w h S ax ay).y
      ⌊S.zoom⌋).lat
  unfold MAX_LATITUDE
  exact h.2

theorem screenToLatLon_lon_mem (w h : ℝ) (S : View) (ax ay : ℝ) :
    (screenToLatLon w h S ax ay).lon ∈ Set.Icc (-180 : ℝ) 180 :=
  wrapLongitude_mem
    (tileToLatLng (anchorTile w h S ax ay).x (anchorTile w h S ax ay).y
      ⌊S.zoom⌋).lon

/-- Core of the anchored-zoom/rotate invariance: when neither the latitude
clamp nor the longitude wrap fires on the new center, the geographic
coordinate under the anchor pixel is exactly unchanged. -/
theorem screenToLatLon_applyZoomRotateAbout
    (w h minZoom maxZoom : ℝ) (S : View) (ax ay newZoom newBearing : ℝ)
    (hlat1 : -MAX_LATITUDE ≤
      (azrNewCenterRaw w h minZoom maxZoom S ax ay newZoom newBearing).lat)
    (hlat2 : (azrNewCenterRaw w h minZoom maxZoom S ax ay newZoom newBearing).lat ≤
      MAX_LATITUDE)
    (hlon1 : -180 ≤
      (azrNewCenterRaw w h minZoom maxZoom S ax ay newZoom newBearing).lon)
    (hlon2 : (azrNewCenterRaw w h minZoom maxZoom S ax ay newZoom newBearing).lon ≤
      180) :
    screenToLatLon w h
      (applyZoomRotateAbout w h minZoom maxZoom S ax ay newZoom newBearing) ax ay =
      screenToLatLon w h S ax ay := by
  set S' := applyZoomRotateAbout w h minZoom maxZoom S ax ay newZoom newBearing
    with hS'
  set before := screenToLatLon w h S ax ay with hbefore
  set raw := azrNewCenterRaw w h minZoom maxZoom S ax ay newZoom newBearing
    with hraw
  set nz := max minZoom (min maxZoom newZoom) with hnz
  set zI : ℤ := ⌊nz⌋ with hzI
  set ts : ℝ := TILE_SIZE * (2 : ℝ) ^ (nz - (zI : ℝ)) with hts
  set v := rot ((ax - w / 2) / ts) ((ay - h / 2) / ts) (-newBearing) with hv
  set Ptile := latLngToTile before zI with hPtile
  have hcenter : S'.center = raw := by
    have : S'.center = LatLng.mk (clampLatitude raw.lat) (wrapLongitude raw.lon) :=
      rfl
    rw [this, clampLatitude_eq_self hlat1 hlat2, wrapLongitude_eq_self hlon1 hlon2]
  have hctNew : azrCtNew w h minZoom maxZoom S ax ay newZoom newBearing =
      ⟨Ptile.x - v.1, Ptile.y - v.2⟩ := rfl
  have hraweq : raw = tileToLatLng (Ptile.x - v.1) (Ptile.y - v.2) zI := by
    rw [hraw]
    show tileToLatLng (azrCtNew w h minZoom maxZoom S ax ay newZoom newBearing).x
      (azrCtNew w h minZoom maxZoom S ax ay newZoom newBearing).y zI = _
    rw [hctNew]
  have hS'zoom : S'.zoom = nz := rfl
  have hS'bear : S'.bearing = normalizeAngle newBearing := rfl
  -- the anchor tile point of the NEW state is the anchor tile of the OLD one
  have hanchor' : anchorTile w h S' ax ay = Ptile := by
    have hct' : latLngToTile S'.center ⌊S'.zoom⌋ =
        (⟨Ptile.x - v.1, Ptile.y - v.2⟩ : Pt) := by
      rw [hS'zoom]
      rw [hcenter, hraweq]
      exact latLngToTile_tileToLatLng _ _ zI
        (by rw [← hraweq]; exact hlat1) (by rw [← hraweq]; exact hlat2)
    have hv' : rot ((ax - w / 2) / (TILE_SIZE * (2 : ℝ) ^ (S'.zoom - ((⌊S'.zoom⌋ : ℤ) : ℝ))))
        ((ay - h / 2) / (TILE_SIZE * (2 : ℝ) ^ (S'.zoom - ((⌊S'.zoom⌋ : ℤ) : ℝ))))
        (-S'.bearing) = v := by
      rw [hS'bear]
      rw [rot_neg_normalizeAngle]
      rfl
    show (⟨(latLngToTile S'.center ⌊S'.zoom⌋).x + _, (latLngToTile S'.center ⌊S'.zoom⌋).y + _⟩ : Pt) = Ptile
    rw [hct', hv']
    show (⟨Ptile.x - v.1 + v.1, Ptile.y - v.2 + v.2⟩ : Pt) = Ptile
    have hx : Ptile.x - v.1 + v.1 = Ptile.x := by ring
    have hy : Ptile.y - v.2 + v.2 = Ptile.y := by ring
    rw [hx, hy]
  have hZ'eq : (⌊S'.zoom⌋ : ℤ) = zI := by rw [hS'zoom]
  have hllprev : tileToLatLng Ptile.x Ptile.y zI = before := by
    rw [hPtile, hbefore]
    exact tileToLatLng_latLngToTile zI
      (screenToLatLon_lat_ge w h S ax ay) (screenToLatLon_lat_le w h S ax ay)
  show LatLng.mk
      (clampLatitude (tileToLatLng (anchorTile w h S' ax ay).x
        (anchorTile w h S' ax ay).y ⌊S'.zoom⌋).lat)
      (wrapLongitude (tileToLatLng (anchorTile w h S' ax ay).x
        (anchorTile w h S' ax ay).y ⌊S'.zoom⌋).lon) = before
  rw [hanchor', hZ'eq, hllprev,
    clampLatitude_eq_self (screenToLatLon_lat_ge w h S ax ay)
      (screenToLatLon_lat_le w h S ax ay),
    wrapLongitude_eq_self (screenToLatLon_lon_mem w h S ax ay).1
      (screenToLatLon_lon_mem w h S ax ay).2]

/-! ### Concrete evaluations used by witnesses -/

theorem clampLatitude_zero : clampLatitude 0 = 0 :=
  clampLatitude_eq_self (by norm_num) (by norm_num)

theorem wrapLongitude_zero : wrapLongitude 0 = 0 :=
  wrapLongitude_eq_self (by norm_num) (by norm_num)

theorem project_zero : project ⟨0, 0⟩ = ⟨0, 0⟩ := by
  unfold project MAX_LATITUDE
  have hclamp : max (min (85.05112878 : ℝ) 0) (-85.05112878) = 0 := by norm_num
  rw [Pt.mk.injEq]
  constructor
  · ring
  · rw [hclamp]
    norm_num

theorem latLngToTile_zero (z : ℤ) :
    latLngToTile ⟨0, 0⟩ z = ⟨(2 : ℝ) ^ z / 2, (2 : ℝ) ^ z / 2⟩ := by
  have hπ : π ≠ 0 := Real.pi_ne_zero
  have hR : EARTH_RADIUS ≠ 0 := by unfold EARTH_RADIUS; norm_num
  unfold latLngToTile
  rw [project_zero, Pt.mk.injEq]
  constructor
  · show (0 + π * EARTH_RADIUS) / (2 * π * EARTH_RADIUS) * (2 : ℝ) ^ z = _
    field_simp
    ring
  · show (π * EARTH_RADIUS - 0) / (2 * π * EARTH_RADIUS) * (2 : ℝ) ^ z = _
    field_simp
    ring

theorem unproject_zero : unproject ⟨0, 0⟩ = ⟨0, 0⟩ := by
  unfold unproject
  rw [LatLng.mk.injEq]
  constructor
  · show ((2 : ℝ) * Real.arctan (Real.exp (0 / EARTH_RADIUS)) - π / 2) * RAD2DEG = 0
    rw [zero_div, Real.exp_zero, Real.arctan_one]
    ring
  · show (0 : ℝ) / EARTH_RADIUS * RAD2DEG = 0
    rw [zero_div, zero_mul]

theorem tileToLatLng_half (z : ℤ) :
    tileToLatLng ((2 : ℝ) ^ z / 2) ((2 : ℝ) ^ z / 2) z = ⟨0, 0⟩ := by
  have hπ : π ≠ 0 := Real.pi_ne_zero
  have hR : EARTH_RADIUS ≠ 0 := by unfold EARTH_RADIUS; norm_num
  have hs : ((2 : ℝ) ^ z) ≠ 0 := zpow_ne_zero z two_ne_zero
  have hpt : (⟨(2 : ℝ) ^ z / 2 / ((2 : ℝ) ^ z) * 2 * π * EARTH_RADIUS -
      π * EARTH_RADIUS,
      π * EARTH_RADIUS - (2 : ℝ) ^ z / 2 / ((2 : ℝ) ^ z) * 2 * π *
      EARTH_RADIUS⟩ : Pt) = ⟨0, 0⟩ := by
    rw [Pt.mk.injEq]
    constructor
    · field_simp
      ring
    · field_simp
      ring
  dsimp only [tileToLatLng]
  rw [hpt]
  exact unproject_zero

theorem tileToLatLng_half0 : tileToLatLng (1/2 : ℝ) (1/2) 0 = ⟨0, 0⟩ := by
  have hπ : π ≠ 0 := Real.pi_ne_zero
  have hR : EARTH_RADIUS ≠ 0 := by unfold EARTH_RADIUS; norm_num
  have hpt : (⟨(1 : ℝ)/2 / ((2 : ℝ) ^ (0 : ℤ)) * 2 * π * EARTH_RADIUS -
      π * EARTH_RADIUS,
      π * EARTH_RADIUS - (1 : ℝ)/2 / ((2 : ℝ) ^ (0 : ℤ)) * 2 * π *
      EARTH_RADIUS⟩ : Pt) = ⟨0, 0⟩ := by
    rw [Pt.mk.injEq]
    constructor
    · rw [zpow_zero]
      ring
    · rw [zpow_zero]
      ring
  dsimp only [tileToLatLng]
  rw [hpt]
  exact unproject_zero

theorem rot_zero_left (a : ℝ) : rot 0 0 a = (0, 0) := by
  unfold rot
  norm_num

/-- The demo state used by witnesses: center `(0, 0)`, zoom `0`, north-up. -/
def demoView : View := ⟨⟨0, 0⟩, 0, 0⟩

theorem anchorTile_demo : anchorTile 1024 1024 demoView 512 512 = ⟨1/2, 1/2⟩ := by
  dsimp only [anchorTile, demoView]
  have h512 : (512 : ℝ) - 1024 / 2 = 0 := by norm_num
  rw [h512, zero_div, rot_zero_left, Int.floor_zero, latLngToTile_zero]
  rw [Pt.mk.injEq]
  constructor
  · rw [zpow_zero]
    norm_num
  · rw [zpow_zero]
    norm_num

theorem screenToLatLon_demo : screenToLatLon 1024 1024 demoView 512 512 = ⟨0, 0⟩ := by
  dsimp only [screenToLatLon]
  rw [anchorTile_demo]
  show LatLng.mk (clampLatitude (tileToLatLng (1/2) (1/2) ⌊demoView.zoom⌋).lat)
    (wrapLongitude (tileToLatLng (1/2) (1/2) ⌊demoView.zoom⌋).lon) = _
  have hz : ⌊demoView.zoom⌋ = (0 : ℤ) := by
    show ⌊(0 : ℝ)⌋ = (0 : ℤ)
    exact Int.floor_zero
  rw [hz, tileToLatLng_half0]
  rw [LatLng.mk.injEq]
  exact ⟨clampLatitude_zero, wrapLongitude_zero⟩

theorem azrCtNew_demo :
    azrCtNew 1024 1024 0 19 demoView 512 512 0 0 = ⟨1/2, 1/2⟩ := by
  dsimp only [azrCtNew]
  have hnz : max (0 : ℝ) (min 19 0) = 0 := by norm_num
  have h512 : (512 : ℝ) - 1024 / 2 = 0 := by norm_num
  rw [hnz, h512, zero_div, rot_zero_left, Int.floor_zero, screenToLatLon_demo,
    latLngToTile_zero]
  rw [Pt.mk.injEq]
  constructor
  · rw [zpow_zero]
    norm_num
  · rw [zpow_zero]
    norm_num

theorem azrNewCenterRaw_demo :
    azrNewCenterRaw 1024 1024 0 19 demoView 512 512 0 0 = ⟨0, 0⟩ := by
  dsimp only [azrNewCenterRaw]
  rw [azrCtNew_demo]
  have hnz : max (0 : ℝ) (min 19 0) = 0 := by norm_num
  rw [hnz, Int.floor_zero]
  exact tileToLatLng_half0

/-- The two clamp forms appearing in `project` and in `clampLatitude` agree. -/
theorem project_clamp_eq (l : ℝ) :
    max (min MAX_LATITUDE l) (-MAX_LATITUDE) = clampLatitude l := by
  unfold clampLatitude MAX_LATITUDE
  rw [max_comm]

theorem clampLatitude_idem (l : ℝ) :
    clampLatitude (clampLatitude l) = clampLatitude l :=
  clampLatitude_eq_self (clampLatitude_mem l).1 (clampLatitude_mem l).2

/-- The Mercator denominator `1 - sin(lat)` stays strictly positive for every
input because of the latitude clamp: poles are unreachable. -/
theorem one_sub_sin_clamp_pos (l : ℝ) :
    0 < 1 - Real.sin (max (min MAX_LATITUDE l) (-MAX_LATITUDE) * DEG2RAD) := by
  have hπ : (0 : ℝ) < π := Real.pi_pos
  set c := max (min MAX_LATITUDE l) (-MAX_LATITUDE) with hc
  have hub : c ≤ MAX_LATITUDE := by
    apply max_le (min_le_left _ _)
    unfold MAX_LATITUDE
    norm_num
  have hlb : -MAX_LATITUDE ≤ c := le_max_right _ _
  have hθ1 : -(π / 2) < c * DEG2RAD := by
    unfold MAX_LATITUDE at hlb
    unfold DEG2RAD
    nlinarith
  have hθ2 : c * DEG2RAD < π / 2 := by
    unfold MAX_LATITUDE at hub
    unfold DEG2RAD
    nlinarith
  have hcos : 0 < Real.cos (c * DEG2RAD) := Real.cos_pos_of_mem_Ioo ⟨hθ1, hθ2⟩
  have hpyth := Real.sin_sq_add_cos_sq (c * DEG2RAD)
  have hsin_lb := Real.neg_one_le_sin (c * DEG2RAD)
  nlinarith [mul_pos hcos hcos]

/-- **C1 (amended)**: For every screen anchor `(ax, ay)`, target zoom and
target bearing, *provided* the center computed by the anchored transform
needs no latitude clamp and no longitude wrap (its raw value already lies in
`[-MAX_LATITUDE, MAX_LATITUDE] × [-180, 180]`), the geographic coordinate
under the anchor is exactly unchanged by `applyZoomRotateAbout` — in
particular unchanged within `1e-6` degrees in both coordinates.  (Without the
proviso the original claim is false: see the counterexample, where a zoom-out
near the map edge clamps the new center and shifts the anchor coordinate.) -/
theorem C1_anchored_zoom_invariance
    (w h minZoom maxZoom : ℝ) (S : View) (ax ay newZoom newBearing : ℝ)
    (hlat1 : -MAX_LATITUDE ≤
      (azrNewCenterRaw w h minZoom maxZoom S ax ay newZoom newBearing).lat)
    (hlat2 : (azrNewCenterRaw w h minZoom maxZoom S ax ay newZoom newBearing).lat ≤
      MAX_LATITUDE)
    (hlon1 : -180 ≤
      (azrNewCenterRaw w h minZoom maxZoom S ax ay newZoom newBearing).lon)
    (hlon2 : (azrNewCenterRaw w h minZoom maxZoom S ax ay newZoom newBearing).lon ≤
      180) :
    screenToLatLon w h
        (applyZoomRotateAbout w h minZoom maxZoom S ax ay newZoom newBearing)
        ax ay = screenToLatLon w h S ax ay ∧
    |(screenToLatLon w h
        (applyZoomRotateAbout w h minZoom maxZoom S ax ay newZoom newBearing)
        ax ay).lat - (screenToLatLon w h S ax ay).lat| ≤ 1e-6 ∧
    |(screenToLatLon w h
        (applyZoomRotateAbout w h minZoom maxZoom S ax ay newZoom newBearing)
        ax ay).lon - (screenToLatLon w h S ax ay).lon| ≤ 1e-6 := by
  have heq := screenToLatLon_applyZoomRotateAbout w h minZoom maxZoom S ax ay
    newZoom newBearing hlat1 hlat2 hlon1 hlon2
  refine ⟨heq, ?_, ?_⟩ <;> rw [heq] <;> norm_num

/-- Witness for C1 at a concrete anchored zoom on the demo state. -/
theorem C1_anchored_zoom_invariance_witness :
    (-MAX_LATITUDE ≤ (azrNewCenterRaw 1024 1024 0 19 demoView 512 512 0 0).lat) ∧
    ((azrNewCenterRaw 1024 1024 0 19 demoView 512 512 0 0).lat ≤ MAX_LATITUDE) ∧
    (-180 ≤ (azrNewCenterRaw 1024 1024 0 19 demoView 512 512 0 0).lon) ∧
    ((azrNewCenterRaw 1024 1024 0 19 demoView 512 512 0 0).lon ≤ 180) ∧
    (screenToLatLon 1024 1024
        (applyZoomRotateAbout 1024 1024 0 19 demoView 512 512 0 0) 512 512 =
      screenToLatLon 1024 1024 demoView 512 512 ∧
    |(screenToLatLon 1024 1024
        (applyZoomRotateAbout 1024 1024 0 19 demoView 512 512 0 0) 512 512).lat -
      (screenToLatLon 1024 1024 demoView 512 512).lat| ≤ 1e-6 ∧
    |(screenToLatLon 1024 1024
        (applyZoomRotateAbout 1024 1024 0 19 demoView 512 512 0 0) 512 512).lon -
      (screenToLatLon 1024 1024 demoView 512 512).lon| ≤ 1e-6) := by
  have h1 : -MAX_LATITUDE ≤ (azrNewCenterRaw 1024 1024 0 19 demoView 512 512 0 0).lat := by
    rw [azrNewCenterRaw_demo]
    unfold MAX_LATITUDE
    norm_num
  have h2 : (azrNewCenterRaw 1024 1024 0 19 demoView 512 512 0 0).lat ≤ MAX_LATITUDE := by
    rw [azrNewCenterRaw_demo]
    unfold MAX_LATITUDE
    norm_num
  have h3 : (-180 : ℝ) ≤ (azrNewCenterRaw 1024 1024 0 19 demoView 512 512 0 0).lon := by
    rw [azrNewCenterRaw_demo]
    norm_num
  have h4 : (azrNewCenterRaw 1024 1024 0 19 demoView 512 512 0 0).lon ≤ 180 := by
    rw [azrNewCenterRaw_demo]
    norm_num
  exact ⟨h1, h2, h3, h4,
    C1_anchored_zoom_invariance 1024 1024 0 19 demoView 512 512 0 0 h1 h2 h3 h4⟩

/-- **C2**: for `lat ∈ (-85, 85)` and `lon ∈ (-180, 180)`,
`unproject (project {lat, lon})` returns the input exactly (in the real-number
model, hence within `1e-9`); `project` clamps latitude to `±85.05112878`
before use, and the Mercator denominator `1 - sin(lat)` is strictly positive
for *every* input, so no division by zero or infinite `y` can occur. -/
theorem C2_projection_roundtrip (lat lon : ℝ)
    (h1 : -85 < lat) (h2 : lat < 85) (h3 : -180 < lon) (h4 : lon < 180) :
    unproject (project ⟨lat, lon⟩) = (⟨lat, lon⟩ : LatLng) ∧
    |(unproject (project ⟨lat, lon⟩)).lat - lat| ≤ 1e-9 ∧
    |(unproject (project ⟨lat, lon⟩)).lon - lon| ≤ 1e-9 ∧
    (∀ lat' lon' : ℝ, project ⟨lat', lon'⟩ = project ⟨clampLatitude lat', lon'⟩) ∧
    (∀ lat' : ℝ,
      0 < 1 - Real.sin (max (min MAX_LATITUDE lat') (-MAX_LATITUDE) * DEG2RAD)) := by
  have hlb : -MAX_LATITUDE ≤ lat := by
    unfold MAX_LATITUDE
    linarith
  have hub : lat ≤ MAX_LATITUDE := by
    unfold MAX_LATITUDE
    linarith
  have hrt : unproject (project ⟨lat, lon⟩) = (⟨lat, lon⟩ : LatLng) :=
    unproject_project hlb hub
  refine ⟨hrt, ?_, ?_, ?_, one_sub_sin_clamp_pos⟩
  · rw [hrt]
    norm_num
  · rw [hrt]
    norm_num
  · intro lat' lon'
    unfold project
    rw [Pt.mk.injEq]
    refine ⟨rfl, ?_⟩
    rw [project_clamp_eq lat', project_clamp_eq (clampLatitude lat'),
      clampLatitude_idem lat']

/-! ### flyTo and friends (src/Atlas.js:58-63, 3221-3243, 3532-3570) -/

/-- `EASING.easeInOutCubic` (src/Atlas.js:60). -/
def easeInOutCubic (t : ℝ) : ℝ :=
  if t < 0.5 then 4 * t * t * t else 1 - (-2 * t + 2) ^ 3 / 2

/-- The per-job constants `Atlas.flyTo` computes before starting its frame
loop (src/Atlas.js:3538-3548). -/
structure FlyJob where
  sC : LatLng
  dLon : ℝ
  dLat : ℝ
  sZ : ℝ
  eZ : ℝ
  sB : ℝ
  dB : ℝ

/-- Setup phase of `Atlas.flyTo` (src/Atlas.js:3538-3548). -/
def flyToSetup (cur : View) (minZoom maxZoom : ℝ) (center : LatLng)
    (zoom bearing : ℝ) : FlyJob :=
  let targetZoom := max minZoom (min maxZoom zoom)
  let eC : LatLng := ⟨center.lat, wrapLongitude center.lon⟩
  { sC := cur.center
    dLon := wrapDeltaLon (eC.lon - cur.center.lon)
    dLat := eC.lat - cur.center.lat
    sZ := cur.zoom
    eZ := targetZoom
    sB := cur.bearing
    dB := shortestAngleDiff cur.bearing bearing }

/-- One frame of the `Atlas.flyTo` step loop at normalized time `t`
(src/Atlas.js:3549-3559); the longitude is wrapped only on the final frame
(`t >= 1`). -/
def flyToFrame (j : FlyJob) (t : ℝ) : View :=
  let p := if 1 ≤ t then 1 else easeInOutCubic (max 0 (min 1 t))
  let currentLon := j.sC.lon + j.dLon * p
  { center := { lat := clampLatitude (j.sC.lat + j.dLat * p)
                lon := if 1 ≤ t then wrapLongitude currentLon else currentLon }
    zoom := j.sZ + (j.eZ - j.sZ) * p
    bearing := normalizeAngle (j.sB + j.dB * p) }

/-- `Atlas.setZoom` (src/Atlas.js:3221-3231): clamp into the base layer's
range; the early-return on equality leaves the zoom unchanged. -/
def setZoom (minZoom maxZoom cur z : ℝ) : ℝ :=
  let nz := max minZoom (min maxZoom z)
  if nz = cur then cur else nz

/-- `Atlas.setBearing` (src/Atlas.js:3237-3243): normalize; the early-return
below the `1e-6` threshold leaves the bearing unchanged. -/
def setBearing (cur rad : ℝ) : ℝ :=
  let nr := normalizeAngle rad
  if |nr - cur| < 1e-6 then cur else nr

theorem wrapDeltaLon_mem (δ : ℝ) : wrapDeltaLon δ ∈ Set.Ico (-180 : ℝ) 180 := by
  unfold wrapDeltaLon
  constructor
  · have := jsWrap_nonneg (δ + 180) (by norm_num : (0:ℝ) < 360)
    linarith
  · have := jsWrap_lt (δ + 180) (by norm_num : (0:ℝ) < 360)
    linarith

theorem wrapDeltaLon_congr (δ : ℝ) : ∃ k : ℤ, wrapDeltaLon δ = δ - 360 * k := by
  refine ⟨⌊(δ + 180) / 360⌋, ?_⟩
  unfold wrapDeltaLon
  rw [jsWrap_eq (δ + 180) (by norm_num : (0:ℝ) < 360)]
  ring

/-- The dateline scenario: flying from lon `-179` to lon `179` computes the
2°-wide delta `-2`, not the 358°-wide one. -/
theorem wrapDeltaLon_dateline : wrapDeltaLon (179 - (-179)) = -2 := by
  have h : (179 : ℝ) - (-179) = 358 := by norm_num
  rw [h]
  unfold wrapDeltaLon
  rw [jsWrap_eq (358 + 180) (by norm_num : (0:ℝ) < 360)]
  have hfl : ⌊((358 : ℝ) + 180) / 360⌋ = 1 := by
    rw [Int.floor_eq_iff]
    constructor
    · norm_num
    · norm_num
  rw [hfl]
  norm_num

theorem easeInOutCubic_mem {t : ℝ} (h0 : 0 ≤ t) (h1 : t ≤ 1) :
    easeInOutCubic t ∈ Set.Icc (0 : ℝ) 1 := by
  unfold easeInOutCubic
  split_ifs with h
  · have ht2 : t * t ≤ 1/2 * (1/2) := by nlinarith
    have ht3 : t * t * t ≤ 1/8 := by nlinarith
    constructor
    · positivity
    · linarith
  · push_neg at h
    have hu0 : (0:ℝ) ≤ -2 * t + 2 := by linarith
    have hu1 : -2 * t + 2 ≤ 1 := by linarith
    have hcube0 : (0:ℝ) ≤ (-2 * t + 2) ^ 3 := by positivity
    have hcube1 : (-2 * t + 2) ^ 3 ≤ 1 := pow_le_one₀ hu0 hu1
    constructor
    · linarith
    · linarith

/-- **C6**: `flyTo` interpolates the center longitude along the shortest
east-west delta (`dLon ∈ [-180, 180)`, congruent to the raw difference mod
360; from `-179` to `179` the delta is `-2`), latitude and zoom linearly,
and bearing along the shortest angular path (`dB ∈ (-π, π]`, congruent mod
`2π`), all scaled by the easing curve; intermediate frames leave the
longitude un-wrapped and only the final frame (`t ≥ 1`) wraps it. -/
theorem C6_flyTo_interpolation (cur : View) (minZoom maxZoom : ℝ)
    (center : LatLng) (zoom bearing : ℝ) (t : ℝ)
    (hlatS1 : -MAX_LATITUDE ≤ cur.center.lat)
    (hlatS2 : cur.center.lat ≤ MAX_LATITUDE)
    (hlatE1 : -MAX_LATITUDE ≤ center.lat) (hlatE2 : center.lat ≤ MAX_LATITUDE)
    (ht0 : 0 ≤ t) (ht1 : t < 1) :
    (flyToSetup cur minZoom maxZoom center zoom bearing).dLon ∈
      Set.Ico (-180 : ℝ) 180 ∧
    (∃ k : ℤ, (flyToSetup cur minZoom maxZoom center zoom bearing).dLon =
      (wrapLongitude center.lon - cur.center.lon) - 360 * k) ∧
    (flyToFrame (flyToSetup cur minZoom maxZoom center zoom bearing) t).center.lon =
      cur.center.lon +
      (flyToSetup cur minZoom maxZoom center zoom bearing).dLon * easeInOutCubic t ∧
    (flyToFrame (flyToSetup cur minZoom maxZoom center zoom bearing) t).center.lat =
      cur.center.lat + (center.lat - cur.center.lat) * easeInOutCubic t ∧
    (flyToFrame (flyToSetup cur minZoom maxZoom center zoom bearing) t).zoom =
      cur.zoom + (max minZoom (min maxZoom zoom) - cur.zoom) * easeInOutCubic t ∧
    (flyToSetup cur minZoom maxZoom center zoom bearing).dB ∈
      Set.Ioc (-π) π ∧
    (∃ k : ℤ, (flyToSetup cur minZoom maxZoom center zoom bearing).dB =
      (bearing - cur.bearing) - 2 * π * k) ∧
    (flyToFrame (flyToSetup cur minZoom maxZoom center zoom bearing) t).bearing =
      normalizeAngle (cur.bearing +
        (flyToSetup cur minZoom maxZoom center zoom bearing).dB * easeInOutCubic t) ∧
    (flyToFrame (flyToSetup cur minZoom maxZoom center zoom bearing) 1).center.lon =
      wrapLongitude (cur.center.lon +
        (flyToSetup cur minZoom maxZoom center zoom bearing).dLon) ∧
    wrapDeltaLon (179 - (-179)) = -2 := by
  unfold MAX_LATITUDE at hlatS1 hlatS2 hlatE1 hlatE2
  set j := flyToSetup cur minZoom maxZoom center zoom bearing with hj
  have hsC : j.sC = cur.center := rfl
  have hdLat : j.dLat = center.lat - cur.center.lat := rfl
  have hsZ : j.sZ = cur.zoom := rfl
  have heZ : j.eZ = max minZoom (min maxZoom zoom) := rfl
  have hsB : j.sB = cur.bearing := rfl
  have hnot1 : ¬ (1 : ℝ) ≤ t := not_le.mpr ht1
  have hmaxmin : max 0 (min 1 t) = t := by
    rw [min_eq_right ht1.le, max_eq_right ht0]
  have hp : (if (1:ℝ) ≤ t then (1:ℝ) else easeInOutCubic (max 0 (min 1 t))) =
      easeInOutCubic t := by
    rw [if_neg hnot1, hmaxmin]
  have hease := easeInOutCubic_mem ht0 ht1.le
  refine ⟨wrapDeltaLon_mem _, ?_, ?_, ?_, ?_, normalizeAngle_mem _, ?_, ?_, ?_,
    wrapDeltaLon_dateline⟩
  · obtain ⟨k, hk⟩ := wrapDeltaLon_congr (wrapLongitude center.lon - cur.center.lon)
    exact ⟨k, hk⟩
  · show (if (1:ℝ) ≤ t then wrapLongitude (j.sC.lon + j.dLon *
        (if (1:ℝ) ≤ t then (1:ℝ) else easeInOutCubic (max 0 (min 1 t))))
      else j.sC.lon + j.dLon *
        (if (1:ℝ) ≤ t then (1:ℝ) else easeInOutCubic (max 0 (min 1 t)))) = _
    rw [if_neg hnot1, hp, hsC]
  · show clampLatitude (j.sC.lat + j.dLat *
      (if (1:ℝ) ≤ t then (1:ℝ) else easeInOutCubic (max 0 (min 1 t)))) = _
    rw [hp, hsC, hdLat]
    apply clampLatitude_eq_self
    · nlinarith [mul_nonneg (by linarith : (0:ℝ) ≤ cur.center.lat + 85.05112878)
        (by linarith [hease.2] : (0:ℝ) ≤ 1 - easeInOutCubic t),
        mul_nonneg (by linarith : (0:ℝ) ≤ center.lat + 85.05112878) hease.1]
    · nlinarith [mul_nonneg (by linarith : (0:ℝ) ≤ 85.05112878 - cur.center.lat)
        (by linarith [hease.2] : (0:ℝ) ≤ 1 - easeInOutCubic t),
        mul_nonneg (by linarith : (0:ℝ) ≤ 85.05112878 - center.lat) hease.1]
  · show j.sZ + (j.eZ - j.sZ) *
      (if (1:ℝ) ≤ t then (1:ℝ) else easeInOutCubic (max 0 (min 1 t))) = _
    rw [hp, hsZ, heZ]
  · refine ⟨⌈(bearing - cur.bearing - π) / (2 * π)⌉, ?_⟩
    show normalizeAngle (bearing - cur.bearing) = _
    rw [normalizeAngle_eq]
  · show normalizeAngle (j.sB + j.dB *
      (if (1:ℝ) ≤ t then (1:ℝ) else easeInOutCubic (max 0 (min 1 t)))) = _
    rw [hp, hsB]
  · show (if (1:ℝ) ≤ (1:ℝ) then wrapLongitude (j.sC.lon + j.dLon *
        (if (1:ℝ) ≤ (1:ℝ) then (1:ℝ) else easeInOutCubic (max 0 (min 1 1))))
      else _) = _
    rw [if_pos le_rfl, if_pos le_rfl, mul_one, hsC]

/-- Witness for C6 at a concrete mid-flight frame. -/
theorem C6_flyTo_interpolation_witness :
    (-MAX_LATITUDE ≤ (demoView).center.lat) ∧
    ((demoView).center.lat ≤ MAX_LATITUDE) ∧
    (-MAX_LATITUDE ≤ (⟨0, 179⟩ : LatLng).lat) ∧
    ((⟨0, 179⟩ : LatLng).lat ≤ MAX_LATITUDE) ∧
    ((0:ℝ) ≤ 1/2) ∧ ((1/2 : ℝ) < 1) ∧
    ((flyToSetup demoView 0 19 ⟨0, 179⟩ 5 0).dLon ∈ Set.Ico (-180 : ℝ) 180 ∧
     (∃ k : ℤ, (flyToSetup demoView 0 19 ⟨0, 179⟩ 5 0).dLon =
       (wrapLongitude (⟨0, 179⟩ : LatLng).lon - demoView.center.lon) - 360 * k) ∧
     (flyToFrame (flyToSetup demoView 0 19 ⟨0, 179⟩ 5 0) (1/2)).center.lon =
       demoView.center.lon +
       (flyToSetup demoView 0 19 ⟨0, 179⟩ 5 0).dLon * easeInOutCubic (1/2) ∧
     (flyToFrame (flyToSetup demoView 0 19 ⟨0, 179⟩ 5 0) (1/2)).center.lat =
       demoView.center.lat +
       ((⟨0, 179⟩ : LatLng).lat - demoView.center.lat) * easeInOutCubic (1/2) ∧
     (flyToFrame (flyToSetup demoView 0 19 ⟨0, 179⟩ 5 0) (1/2)).zoom =
       demoView.zoom + (max 0 (min 19 5) - demoView.zoom) * easeInOutCubic (1/2) ∧
     (flyToSetup demoView 0 19 ⟨0, 179⟩ 5 0).dB ∈ Set.Ioc (-π) π ∧
     (∃ k : ℤ, (flyToSetup demoView 0 19 ⟨0, 179⟩ 5 0).dB =
       (0 - demoView.bearing) - 2 * π * k) ∧
     (flyToFrame (flyToSetup demoView 0 19 ⟨0, 179⟩ 5 0) (1/2)).bearing =
       normalizeAngle (demoView.bearing +
         (flyToSetup demoView 0 19 ⟨0, 179⟩ 5 0).dB * easeInOutCubic (1/2)) ∧
     (flyToFrame (flyToSetup demoView 0 19 ⟨0, 179⟩ 5 0) 1).center.lon =
       wrapLongitude (demoView.center.lon +
         (flyToSetup demoView 0 19 ⟨0, 179⟩ 5 0).dLon) ∧
     wrapDeltaLon (179 - (-179)) = -2) := by
  have hA : -MAX_LATITUDE ≤ demoView.center.lat := by
    show -MAX_LATITUDE ≤ (0 : ℝ)
    unfold MAX_LATITUDE
    norm_num
  have hB : demoView.center.lat ≤ MAX_LATITUDE := by
    show (0 : ℝ) ≤ MAX_LATITUDE
    unfold MAX_LATITUDE
    norm_num
  have hC : -MAX_LATITUDE ≤ (⟨0, 179⟩ : LatLng).lat := by
    show -MAX_LATITUDE ≤ (0 : ℝ)
    unfold MAX_LATITUDE
    norm_num
  have hD : (⟨0, 179⟩ : LatLng).lat ≤ MAX_LATITUDE := by
    show (0 : ℝ) ≤ MAX_LATITUDE
    unfold MAX_LATITUDE
    norm_num
  exact ⟨hA, hB, hC, hD, by norm_num, by norm_num,
    C6_flyTo_interpolation demoView 0 19 ⟨0, 179⟩ 5 0 (1/2) hA hB hC hD
      (by norm_num) (by norm_num)⟩

/-- **C7 counterexample**: a mid-flight `flyTo` frame (an operation that
writes the viewport state) leaves the center longitude at `180.875`, outside
the claimed normalized range `(-180, 180]`: flying from lon `179` toward lon
`-179` at eased progress `15/16` deliberately does not wrap. -/
theorem C7_counterexample_flyTo_frame :
    (flyToFrame (flyToSetup ⟨⟨0, 179⟩, 5, 0⟩ 0 19 ⟨0, -179⟩ 5 0)
      (3/4)).center.lon ∉ Set.Ioc (-180 : ℝ) 180 := by
  have hwl : wrapLongitude (-179 : ℝ) = -179 :=
    wrapLongitude_eq_self (by norm_num) (by norm_num)
  have hdLon : (flyToSetup ⟨⟨0, 179⟩, 5, 0⟩ 0 19 ⟨0, -179⟩ 5 0).dLon = 2 := by
    show wrapDeltaLon (wrapLongitude (-179) - 179) = 2
    rw [hwl]
    have harg : (-179 : ℝ) - 179 = -358 := by norm_num
    rw [harg]
    unfold wrapDeltaLon
    rw [jsWrap_eq ((-358 : ℝ) + 180) (by norm_num : (0:ℝ) < 360)]
    have hfl : ⌊((-358 : ℝ) + 180) / 360⌋ = -1 := by
      rw [Int.floor_eq_iff]
      constructor
      · norm_num
      · norm_num
    rw [hfl]
    norm_num
  have hease : easeInOutCubic (3/4) = 15/16 := by
    unfold easeInOutCubic
    rw [if_neg (by norm_num)]
    norm_num
  have hlon : (flyToFrame (flyToSetup ⟨⟨0, 179⟩, 5, 0⟩ 0 19 ⟨0, -179⟩ 5 0)
      (3/4)).center.lon = 179 + 2 * (15/16) := by
    show (if (1:ℝ) ≤ 3/4 then wrapLongitude _ else
      (flyToSetup ⟨⟨0, 179⟩, 5, 0⟩ 0 19 ⟨0, -179⟩ 5 0).sC.lon +
      (flyToSetup ⟨⟨0, 179⟩, 5, 0⟩ 0 19 ⟨0, -179⟩ 5 0).dLon *
        (if (1:ℝ) ≤ 3/4 then 1 else easeInOutCubic (max 0 (min 1 (3/4))))) = _
    rw [if_neg (by norm_num : ¬ (1:ℝ) ≤ 3/4), if_neg (by norm_num : ¬ (1:ℝ) ≤ 3/4)]
    have hmm : max (0:ℝ) (min 1 (3/4)) = 3/4 := by norm_num
    rw [hmm, hease, hdLon]
    rfl
  intro hmem
  rw [hlon] at hmem
  have := hmem.2
  norm_num at this

/-- **C7 (amended)**: after the wrap/clamp-applying write operations — a drag
pan (whose center is a `screenToLatLon` result), `setZoom`, `setBearing`,
`applyZoomRotateAbout`, and the *final* `flyTo` frame — the state satisfies
`lat ∈ [-85.05112878, 85.05112878]`, `lon ∈ [-180, 180]` (the closed
interval: `wrapLongitude` can return exactly `-180`), `zoom` within the base
layer's range, and `bearing ∈ (-π, π]`.  Intermediate `flyTo` frames are
exempt: they leave the longitude un-wrapped by design (see the
counterexample). -/
theorem C7_viewport_invariants (w hgt minZoom maxZoom : ℝ)
    (hz : minZoom ≤ maxZoom) (S : View) (ax ay newZoom newBearing : ℝ)
    (curZoom z curB rad : ℝ) (hB : curB ∈ Set.Ioc (-π) π)
    (cur : View) (center : LatLng) (zoom bearing : ℝ) :
    ((screenToLatLon w hgt S ax ay).lat ∈
      Set.Icc (-85.05112878 : ℝ) 85.05112878 ∧
     (screenToLatLon w hgt S ax ay).lon ∈ Set.Icc (-180 : ℝ) 180) ∧
    setZoom minZoom maxZoom curZoom z ∈ Set.Icc minZoom maxZoom ∧
    setBearing curB rad ∈ Set.Ioc (-π) π ∧
    ((applyZoomRotateAbout w hgt minZoom maxZoom S ax ay newZoom newBearing).center.lat
        ∈ Set.Icc (-85.05112878 : ℝ) 85.05112878 ∧
     (applyZoomRotateAbout w hgt minZoom maxZoom S ax ay newZoom newBearing).center.lon
        ∈ Set.Icc (-180 : ℝ) 180 ∧
     (applyZoomRotateAbout w hgt minZoom maxZoom S ax ay newZoom newBearing).zoom
        ∈ Set.Icc minZoom maxZoom ∧
     (applyZoomRotateAbout w hgt minZoom maxZoom S ax ay newZoom newBearing).bearing
        ∈ Set.Ioc (-π) π) ∧
    ((flyToFrame (flyToSetup cur minZoom maxZoom center zoom bearing) 1).center.lat
        ∈ Set.Icc (-85.05112878 : ℝ) 85.05112878 ∧
     (flyToFrame (flyToSetup cur minZoom maxZoom center zoom bearing) 1).center.lon
        ∈ Set.Icc (-180 : ℝ) 180 ∧
     (flyToFrame (flyToSetup cur minZoom maxZoom center zoom bearing) 1).zoom
        ∈ Set.Icc minZoom maxZoom ∧
     (flyToFrame (flyToSetup cur minZoom maxZoom center zoom bearing) 1).bearing
        ∈ Set.Ioc (-π) π) := by
  have hclamp_range : ∀ m : ℝ, max minZoom (min maxZoom m) ∈ Set.Icc minZoom maxZoom := by
    intro m
    constructor
    · exact le_max_left _ _
    · exact max_le hz (min_le_left _ _)
  refine ⟨⟨?_, ?_⟩, ?_, ?_, ⟨?_, ?_, ?_, ?_⟩, ⟨?_, ?_, ?_, ?_⟩⟩
  · exact clampLatitude_mem _
  · exact wrapLongitude_mem _
  · dsimp only [setZoom]
    split_ifs with h
    · rw [← h]
      exact hclamp_range z
    · exact hclamp_range z
  · dsimp only [setBearing]
    split_ifs with h
    · exact hB
    · exact normalizeAngle_mem _
  · exact clampLatitude_mem _
  · exact wrapLongitude_mem _
  · exact hclamp_range newZoom
  · exact normalizeAngle_mem _
  · exact clampLatitude_mem _
  · show (if (1:ℝ) ≤ 1 then wrapLongitude _ else _) ∈ Set.Icc (-180 : ℝ) 180
    rw [if_pos le_rfl]
    exact wrapLongitude_mem _
  · show (flyToSetup cur minZoom maxZoom center zoom bearing).sZ +
      ((flyToSetup cur minZoom maxZoom center zoom bearing).eZ -
        (flyToSetup cur minZoom maxZoom center zoom bearing).sZ) *
      (if (1:ℝ) ≤ 1 then 1 else easeInOutCubic (max 0 (min 1 1))) ∈
        Set.Icc minZoom maxZoom
    rw [if_pos le_rfl, mul_one]
    have heZ : (flyToSetup cur minZoom maxZoom center zoom bearing).eZ =
      max minZoom (min maxZoom zoom) := rfl
    have : (flyToSetup cur minZoom maxZoom center zoom bearing).sZ +
        ((flyToSetup cur minZoom maxZoom center zoom bearing).eZ -
          (flyToSetup cur minZoom maxZoom center zoom bearing).sZ) =
        (flyToSetup cur minZoom maxZoom center zoom bearing).eZ := by ring
    rw [this, heZ]
    exact hclamp_range zoom
  · exact normalizeAngle_mem _

/-- Witness for the amended C7 at concrete values. -/
theorem C7_viewport_invariants_witness :
    ((0 : ℝ) ≤ 19) ∧ ((0 : ℝ) ∈ Set.Ioc (-π) π) ∧
    (((screenToLatLon 1024 1024 demoView 512 512).lat ∈
        Set.Icc (-85.05112878 : ℝ) 85.05112878 ∧
      (screenToLatLon 1024 1024 demoView 512 512).lon ∈ Set.Icc (-180 : ℝ) 180) ∧
     setZoom 0 19 3 7 ∈ Set.Icc (0 : ℝ) 19 ∧
     setBearing 0 1 ∈ Set.Ioc (-π) π ∧
     ((applyZoomRotateAbout 1024 1024 0 19 demoView 512 512 0 0).center.lat
         ∈ Set.Icc (-85.05112878 : ℝ) 85.05112878 ∧
      (applyZoomRotateAbout 1024 1024 0 19 demoView 512 512 0 0).center.lon
         ∈ Set.Icc (-180 : ℝ) 180 ∧
      (applyZoomRotateAbout 1024 1024 0 19 demoView 512 512 0 0).zoom
         ∈ Set.Icc (0 : ℝ) 19 ∧
      (applyZoomRotateAbout 1024 1024 0 19 demoView 512 512 0 0).bearing
         ∈ Set.Ioc (-π) π) ∧
     ((flyToFrame (flyToSetup demoView 0 19 ⟨0, 179⟩ 5 0) 1).center.lat
         ∈ Set.Icc (-85.05112878 : ℝ) 85.05112878 ∧
      (flyToFrame (flyToSetup demoView 0 19 ⟨0, 179⟩ 5 0) 1).center.lon
         ∈ Set.Icc (-180 : ℝ) 180 ∧
      (flyToFrame (flyToSetup demoView 0 19 ⟨0, 179⟩ 5 0) 1).zoom
         ∈ Set.Icc (0 : ℝ) 19 ∧
      (flyToFrame (flyToSetup demoView 0 19 ⟨0, 179⟩ 5 0) 1).bearing
         ∈ Set.Ioc (-π) π)) := by
  have hpi : (0 : ℝ) < π := Real.pi_pos
  have hB : (0 : ℝ) ∈ Set.Ioc (-π) π := ⟨by linarith, by linarith⟩
  exact ⟨by norm_num, hB,
    C7_viewport_invariants 1024 1024 0 19 (by norm_num) demoView 512 512 0 0
      3 7 0 1 hB demoView ⟨0, 179⟩ 5 0⟩

/-- Witness for C2 at the origin. -/
theorem C2_projection_roundtrip_witness :
    ((-85 : ℝ) < 0) ∧ ((0 : ℝ) < 85) ∧ ((-180 : ℝ) < 0) ∧ ((0 : ℝ) < 180) ∧
    (unproject (project ⟨0, 0⟩) = (⟨0, 0⟩ : LatLng) ∧
     |(unproject (project ⟨0, 0⟩)).lat - 0| ≤ 1e-9 ∧
     |(unproject (project ⟨0, 0⟩)).lon - 0| ≤ 1e-9 ∧
     (∀ lat' lon' : ℝ, project ⟨lat', lon'⟩ = project ⟨clampLatitude lat', lon'⟩) ∧
     (∀ lat' : ℝ,
       0 < 1 - Real.sin (max (min MAX_LATITUDE lat') (-MAX_LATITUDE) * DEG2RAD))) :=
  ⟨by norm_num, by norm_num, by norm_num, by norm_num,
    C2_projection_roundtrip 0 0 (by norm_num) (by norm_num) (by norm_num)
      (by norm_num)⟩

end RealModel

/-! ### Tile layer state and operations (src/Atlas.js:372-544)

The tile cache is a JS `Map` keyed by `"z/x/y"` strings; it is modelled as an
association list (the `Map` is keyed, so key-based semantics do not depend on
entry order).  Timestamps (`Date.now()`) are integers. -/

/-- A cached tile record (`{img, loaded, loadedAt, lastUsed, controller}`,
src/Atlas.js:422).  The image handle is represented by the URL assigned to
`img.src`. -/
structure TileRec where
  img : String
  loaded : Bool
  loadedAt : ℤ
  lastUsed : ℤ
deriving DecidableEq

/-- Events fired by `TileLayer` (src/Atlas.js:438, 456, 472). -/
inductive TileEvent
  | tileload (key : String)
  | tileerror (key : String)
deriving DecidableEq

/-- The mutable bookkeeping of a `TileLayer` (src/Atlas.js:390-393) plus the
stream of fired events. -/
structure LayerState where
  tileCache : List (String × TileRec)
  loadingTiles : List String
  loadingControllers : List String
  retinaAvailable : Bool
  events : List TileEvent
deriving DecidableEq

/-- The synchronous entry of `TileLayer._loadTile` (src/Atlas.js:415-424):
if the key is already cached (pending or loaded), the existing record is
returned unchanged and no load starts; otherwise a pending record is
inserted into the cache, the key is added to `loadingTiles` and
`loadingControllers`, and a load starts.  Returns the new state, the record
handed to the caller, and whether a new load was started. -/
def loadTileEnter (st : LayerState) (key url : String) (now : ℤ) :
    LayerState × TileRec × Bool :=
  match st.tileCache.lookup key with
  | some r => (st, r, false)
  | none =>
      let tile : TileRec := ⟨url, false, now, now⟩
      ({ st with tileCache := (key, tile) :: st.tileCache
                 loadingTiles := key :: st.loadingTiles
                 loadingControllers := key :: st.loadingControllers },
       tile, true)

/-- The in-flight-load invariant: each key holds at most one
`AbortController` and every in-flight key has a (pending) cache record. -/
def InflightInv (st : LayerState) : Prop :=
  st.loadingControllers.Nodup ∧
    ∀ k ∈ st.loadingControllers, (st.tileCache.lookup k).isSome

/-- `TileLayer._performEviction` (src/Atlas.js:536-544): when over the limit,
sort a copy of the entries by `lastUsed` ascending and delete the first
`size - maxCacheSize` keys from the cache. -/
def performEviction (cache : List (String × TileRec)) (maxCacheSize : ℕ) :
    List (String × TileRec) :=
  if cache.length ≤ maxCacheSize then cache
  else
    let entries := cache.mergeSort (fun a b => decide (a.2.lastUsed ≤ b.2.lastUsed))
    let removeCount := cache.length - maxCacheSize
    let removeKeys := (entries.take removeCount).map Prod.fst
    cache.filter (fun e => decide (e.1 ∉ removeKeys))

/-! ### Tile URL resolution and error handling
(src/Atlas.js:396-413, 460-474) -/

/-- `CONFIG.retinaSuffix = "@2x"` (src/Atlas.js:55). -/
def retinaSuffix : String := "@2x"

/-- The `CONFIG.retina` mode (src/Atlas.js:54, default `"auto"`). -/
inductive RetinaMode
  | auto
  | always
  | never
deriving DecidableEq

/-- JavaScript's `String.prototype.replace(pat, rep)` with a string pattern
replaces only the FIRST occurrence. -/
def replaceFirstAux (pat rep : List Char) : List Char → List Char
  | [] => []
  | c :: rest =>
      if pat.isPrefixOf (c :: rest) then rep ++ (c :: rest).drop pat.length
      else c :: replaceFirstAux pat rep rest

/-- `url.replace(pat, rep)` (first occurrence only). -/
def jsReplace (s pat rep : String) : String :=
  ⟨replaceFirstAux pat.data rep.data s.data⟩

/-- `url.includes(pat)`. -/
def containsSubAux (pat : List Char) : List Char → Bool
  | [] => pat.isPrefixOf ([] : List Char)
  | c :: rest => pat.isPrefixOf (c :: rest) || containsSubAux pat rest

/-- `s.includes(pat)`. -/
def containsSub (s pat : String) : Bool := containsSubAux pat.data s.data

/-- `TileLayer._shouldRequestRetina` (src/Atlas.js:409-413):
`want = (mode === true) || (mode === "auto" && dpr > 1.5)`, and retina must
not have been marked unavailable by an earlier fallback. -/
def shouldRequestRetina (mode : RetinaMode) (dpr : ℚ) (retinaAvailable : Bool) :
    Bool :=
  (match mode with
   | .always => true
   | .auto => decide ((3 / 2 : ℚ) < dpr)
   | .never => false) && retinaAvailable

/-- The integer tile indices `TileLayer._getTileUrl` computes
(src/Atlas.js:396-401): `x` is wrapped by `((x % scale) + scale) % scale`
and floored; `y` is floored and clamped into `[0, scale - 1]`. -/
def getTileUrlIndices (x y : ℚ) (z : ℕ) : ℤ × ℤ :=
  let scale : ℚ := 2 ^ z
  let wrappedX := jsWrap x scale
  (⌊wrappedX⌋, max 0 (min ((2 ^ z : ℤ) - 1) ⌊y⌋))

/-- `TileLayer._getTileUrl` (src/Atlas.js:396-407): substitute `{z}`, `{x}`,
`{y}` (first occurrence each, as JS `replace` does) and append the retina
suffix when the layer supports it and `_shouldRequestRetina()` holds.  Note
the source substitutes no `{s}` placeholder; the OSM subdomain is baked into
the template at construction (src/Atlas.js:3620-3628). -/
def getTileUrl (urlTemplate : String) (x y : ℚ) (z : ℕ)
    (supportsRetina : Bool) (mode : RetinaMode) (dpr : ℚ)
    (retinaAvailable : Bool) : String :=
  let idx := getTileUrlIndices x y z
  let url := jsReplace (jsReplace (jsReplace urlTemplate "{z}" (toString z))
    "{x}" (toString idx.1)) "{y}" (toString idx.2)
  if supportsRetina && shouldRequestRetina mode dpr retinaAvailable then
    url ++ retinaSuffix
  else url

/-- The `img.onerror` handler of `TileLayer._loadTile` (src/Atlas.js:460-474)
as a state transition.  `url` is the handler's captured ORIGINAL request URL
(the retry check tests this closure variable, not the current `img.src`).
Returns the new state and, when the handler retries, the next `img.src`.
The error branch deletes the `loadingTiles`/`loadingControllers` entries and
fires `tileerror`, but does NOT delete the `tileCache` record (contrast the
timeout path, src/Atlas.js:429-441, which does). -/
def onTileError (st : LayerState) (key url : String)
    (supportsRetina aborted : Bool) : LayerState × Option String :=
  if aborted then (st, none)
  else if supportsRetina && containsSub url retinaSuffix then
    ({ st with retinaAvailable := false }, some (jsReplace url retinaSuffix ""))
  else
    ({ st with loadingTiles := st.loadingTiles.erase key
               loadingControllers := st.loadingControllers.erase key
               events := st.events ++ [TileEvent.tileerror key] }, none)

/-! ### Inertia (src/Atlas.js:11-12, 1871-1898)

The drag-release speed is `Math.hypot(vx, vy)`; each frame moves by the
current velocity times `dt`, then reduces the speed linearly by
`INERTIA_DECEL * dt` (clamped at 0), stopping — with a single `moveend` —
once the speed is at or below `INERTIA_STOP_SPEED`.  The velocity vector is
rescaled by `newVmag / vmag` each frame, so the scalar speed recursion below
captures the per-frame magnitudes exactly; the frame interval `dt` is taken
as a fixed positive constant (a steady frame clock). -/

/-- `INERTIA_DECEL = 0.0025` (src/Atlas.js:11). -/
def INERTIA_DECEL : ℚ := 0.0025

/-- `INERTIA_STOP_SPEED = 0.02` (src/Atlas.js:12). -/
def INERTIA_STOP_SPEED : ℚ := 0.02

/-- One run of the inertia frame loop (src/Atlas.js:1875-1896) starting from
speed `v`: returns (number of frames executed, total pixel distance, number
of `moveend` events fired). -/
def inertiaRun (v dt : ℚ) (hdt : 0 < dt) : ℕ × ℚ × ℕ :=
  let dist := v * dt
  let newV := max 0 (v - INERTIA_DECEL * dt)
  if h : newV ≤ INERTIA_STOP_SPEED then (1, dist, 1)
  else
    let r := inertiaRun newV dt hdt
    (r.1 + 1, dist + r.2.1, r.2.2)
termination_by (⌈(v - INERTIA_STOP_SPEED) / (INERTIA_DECEL * dt)⌉).toNat
decreasing_by
  have hD : 0 < INERTIA_DECEL * dt := by
    have : (0 : ℚ) < INERTIA_DECEL := by unfold INERTIA_DECEL; norm_num
    positivity
  have hstop : (0 : ℚ) < INERTIA_STOP_SPEED := by
    unfold INERTIA_STOP_SPEED
    norm_num
  have hnv : INERTIA_STOP_SPEED < max 0 (v - INERTIA_DECEL * dt) := lt_of_not_le h
  have hv' : INERTIA_STOP_SPEED < v - INERTIA_DECEL * dt := by
    rcases max_cases 0 (v - INERTIA_DECEL * dt) with ⟨heq, _⟩ | ⟨heq, _⟩
    · rw [heq] at hnv
      linarith
    · rw [heq] at hnv
      exact hnv
  have hmax : max 0 (v - INERTIA_DECEL * dt) = v - INERTIA_DECEL * dt :=
    max_eq_right (by linarith)
  rw [hmax]
  have harg : (v - INERTIA_DECEL * dt - INERTIA_STOP_SPEED) / (INERTIA_DECEL * dt) =
      (v - INERTIA_STOP_SPEED) / (INERTIA_DECEL * dt) - 1 := by
    field_simp
    ring
  have hge1 : (1 : ℚ) < (v - INERTIA_STOP_SPEED) / (INERTIA_DECEL * dt) := by
    rw [lt_div_iff₀ hD]
    linarith
  have hceil2 : 2 ≤ ⌈(v - INERTIA_STOP_SPEED) / (INERTIA_DECEL * dt)⌉ := by
    have := Int.le_ceil ((v - INERTIA_STOP_SPEED) / (INERTIA_DECEL * dt))
    have h1 : (1 : ℤ) < ⌈(v - INERTIA_STOP_SPEED) / (INERTIA_DECEL * dt)⌉ := by
      rw [Int.lt_ceil]
      push_cast
      exact hge1
    omega
  rw [harg, Int.ceil_sub_one]
  omega

/-- `DragPanHandler._startInertia` (src/Atlas.js:1871-1898): below the stop
speed nothing starts (no frames, no distance, no `moveend`); otherwise the
frame loop runs. -/
def startInertia (speed dt : ℚ) (hdt : 0 < dt) : ℕ × ℚ × ℕ :=
  if speed < INERTIA_STOP_SPEED then (0, 0, 0) else inertiaRun speed dt hdt

/-! ### C3: request de-duplication -/

/-- **C3**: if a record for the key already exists in the tile cache (pending
or loaded), `_loadTile` returns that record and changes nothing — no second
load starts; moreover the transition preserves the at-most-one-in-flight-
controller-per-key invariant, and a new load starts only for keys with no
cache record and no in-flight controller. -/
theorem C3_request_dedup (st : LayerState) (key url : String) (now : ℤ)
    (hinv : InflightInv st) :
    ((st.tileCache.lookup key).isSome →
      (loadTileEnter st key url now).1 = st ∧
      (loadTileEnter st key url now).2.2 = false ∧
      some (loadTileEnter st key url now).2.1 = st.tileCache.lookup key) ∧
    InflightInv (loadTileEnter st key url now).1 ∧
    ((loadTileEnter st key url now).2.2 = true →
      st.tileCache.lookup key = none ∧ key ∉ st.loadingControllers) := by
  obtain ⟨hnodup, hback⟩ := hinv
  cases hcase : st.tileCache.lookup key with
  | some r =>
      have hred : loadTileEnter st key url now = (st, r, false) := by
        unfold loadTileEnter
        rw [hcase]
      rw [hred]
      exact ⟨fun _ => ⟨rfl, rfl, rfl⟩, ⟨hnodup, hback⟩, by simp⟩
  | none =>
      have hkey_not_inflight : key ∉ st.loadingControllers := by
        intro hmem
        have := hback key hmem
        rw [hcase] at this
        simp at this
      have hred : loadTileEnter st key url now =
          ({ st with
              tileCache := (key, (⟨url, false, now, now⟩ : TileRec)) :: st.tileCache
              loadingTiles := key :: st.loadingTiles
              loadingControllers := key :: st.loadingControllers },
           (⟨url, false, now, now⟩ : TileRec), true) := by
        unfold loadTileEnter
        rw [hcase]
      rw [hred]
      refine ⟨?_, ⟨?_, ?_⟩, fun _ => ⟨rfl, hkey_not_inflight⟩⟩
      · intro habs
        simp at habs
      · exact List.nodup_cons.mpr ⟨hkey_not_inflight, hnodup⟩
      · intro k hk
        rcases List.mem_cons.mp hk with hk | hk
        · subst hk
          simp [List.lookup]
        · have hkSome := hback k hk
          have hne : key ≠ k := by
            intro heq
            subst heq
            exact hkey_not_inflight hk
          show (((key, (⟨url, false, now, now⟩ : TileRec)) ::
            st.tileCache).lookup k).isSome
          rw [show ((key, (⟨url, false, now, now⟩ : TileRec)) ::
              st.tileCache).lookup k = st.tileCache.lookup k by
            simp [List.lookup, beq_eq_false_iff_ne.mpr (Ne.symm hne)]]
          exact hkSome

/-- A pending tile record and a layer state holding it, used by concrete
instances below. -/
def pendingTile : TileRec := ⟨"u", false, 0, 0⟩

/-- A layer state with one pending tile under key `"3/1/2"`. -/
def pendingState : LayerState :=
  ⟨[("3/1/2", pendingTile)], ["3/1/2"], ["3/1/2"], true, []⟩

/-- Witness for C3: a second request for an already-pending key is a no-op. -/
theorem C3_request_dedup_witness :
    InflightInv pendingState ∧
    (((pendingState.tileCache.lookup "3/1/2").isSome →
      (loadTileEnter pendingState "3/1/2" "u" 5).1 = pendingState ∧
      (loadTileEnter pendingState "3/1/2" "u" 5).2.2 = false ∧
      some (loadTileEnter pendingState "3/1/2" "u" 5).2.1 =
        pendingState.tileCache.lookup "3/1/2") ∧
    InflightInv (loadTileEnter pendingState "3/1/2" "u" 5).1 ∧
    ((loadTileEnter pendingState "3/1/2" "u" 5).2.2 = true →
      pendingState.tileCache.lookup "3/1/2" = none ∧
      "3/1/2" ∉ pendingState.loadingControllers)) := by
  have hinv : InflightInv pendingState := by
    constructor
    · decide
    · intro k hk
      fin_cases hk
      decide
  exact ⟨hinv, C3_request_dedup pendingState "3/1/2" "u" 5 hinv⟩

/-! ### C4: LRU eviction -/

/-- **C4**: with `maxCacheSize + k` distinct tiles (`k ≥ 1`), one eviction
pass leaves exactly `maxCacheSize` entries (a subsequence of the original
cache, so `k` entries were removed), and every removed entry has a
`lastUsed` no larger than every kept entry's: the removed ones are `k`
least-recently-used entries.  (`performEviction_le` below covers the
at-most-`maxCacheSize` no-op case.) -/
theorem C4_eviction (cache : List (String × TileRec)) (maxCacheSize k : ℕ)
    (hkeys : (cache.map Prod.fst).Nodup)
    (hlen : cache.length = maxCacheSize + k) (hk : 1 ≤ k) :
    (performEviction cache maxCacheSize).length = maxCacheSize ∧
    (performEviction cache maxCacheSize).Sublist cache ∧
    cache.length - (performEviction cache maxCacheSize).length = k ∧
    (∀ e ∈ cache, e ∉ performEviction cache maxCacheSize →
      ∀ e' ∈ performEviction cache maxCacheSize,
        e.2.lastUsed ≤ e'.2.lastUsed) := by
  have hgt : ¬ cache.length ≤ maxCacheSize := by omega
  set entries := cache.mergeSort (fun a b => decide (a.2.lastUsed ≤ b.2.lastUsed))
    with hE
  set rc := cache.length - maxCacheSize with hrc
  set rkeys := (entries.take rc).map Prod.fst with hK
  set p : (String × TileRec) → Bool := fun e => decide (e.1 ∉ rkeys) with hp
  have hP : performEviction cache maxCacheSize = cache.filter p := by
    unfold performEviction
    rw [if_neg hgt]
  have hperm : entries.Perm cache := List.mergeSort_perm cache _
  have hsorted : entries.Pairwise (fun a b =>
      decide (a.2.lastUsed ≤ b.2.lastUsed) = true) := by
    rw [hE]
    exact List.sorted_mergeSort
      (fun a b c hab hbc => by
        simp only [decide_eq_true_eq] at *
        exact le_trans hab hbc)
      (fun a b => by
        simp only [Bool.or_eq_true, decide_eq_true_eq]
        exact le_total _ _)
      cache
  have hkeysE : (entries.map Prod.fst).Nodup :=
    ((hperm.map Prod.fst).nodup_iff).mpr hkeys
  have hsplit : entries.take rc ++ entries.drop rc = entries :=
    List.take_append_drop rc entries
  have htake_mem : ∀ e ∈ entries.take rc, p e = false := by
    intro e he
    rw [hp]
    simp only [decide_eq_false_iff_not, not_not]
    exact List.mem_map_of_mem Prod.fst he
  have hdisj : ∀ a ∈ (entries.take rc).map Prod.fst,
      a ∉ (entries.drop rc).map Prod.fst := by
    have h1 : ((entries.take rc).map Prod.fst ++
        (entries.drop rc).map Prod.fst).Nodup := by
      rw [← List.map_append, hsplit]
      exact hkeysE
    intro a ha hd
    exact (List.nodup_append.mp h1).2.2 ha hd
  have hdrop_mem : ∀ e ∈ entries.drop rc, p e = true := by
    intro e he
    rw [hp]
    simp only [decide_eq_true_eq]
    intro hmem
    exact hdisj e.1 hmem (List.mem_map_of_mem Prod.fst he)
  have hfe : entries.filter p = entries.drop rc := by
    conv_lhs => rw [← hsplit]
    rw [List.filter_append,
      List.filter_eq_nil_iff.mpr (fun a ha => by rw [htake_mem a ha]; simp),
      List.filter_eq_self.mpr hdrop_mem, List.nil_append]
  have hres_perm : (performEviction cache maxCacheSize).Perm (entries.drop rc) := by
    rw [hP, ← hfe]
    exact (hperm.filter p).symm
  have hlenE : entries.length = cache.length := hperm.length_eq
  have hreslen : (performEviction cache maxCacheSize).length = maxCacheSize := by
    rw [hres_perm.length_eq, List.length_drop, hlenE]
    omega
  refine ⟨hreslen, ?_, ?_, ?_⟩
  · rw [hP]
    exact List.filter_sublist cache
  · rw [hreslen]
    omega
  · intro e he hnot e' he'
    have hpe : p e = false := by
      by_contra hpe
      have : p e = true := by
        cases hcase : p e
        · exact absurd hcase hpe
        · rfl
      exact hnot (by rw [hP]; exact List.mem_filter.mpr ⟨he, this⟩)
    have hkeymem : e.1 ∈ rkeys := by
      rw [hp] at hpe
      simpa [decide_eq_false_iff_not, not_not] using hpe
    obtain ⟨er, hermem, herkey⟩ := List.mem_map.mp (hK ▸ hkeymem)
    have hercache : er ∈ cache :=
      hperm.mem_iff.mp (List.mem_of_mem_take hermem)
    have heeq : er = e := List.inj_on_of_nodup_map hkeys hercache he herkey
    have he'drop : e' ∈ entries.drop rc := hres_perm.mem_iff.mp he'
    have hpw := (List.pairwise_append.mp (hsplit ▸ hsorted)).2.2
    have := hpw er hermem e' he'drop
    rw [decide_eq_true_eq] at this
    rw [← heeq]
    exact this

/-- The complementary half of C4: at or below the limit, eviction removes
nothing. -/
theorem performEviction_le (cache : List (String × TileRec)) (maxCacheSize : ℕ)
    (h : cache.length ≤ maxCacheSize) : performEviction cache maxCacheSize = cache := by
  unfold performEviction
  rw [if_pos h]

/-- A concrete three-entry cache used by the C4 witness. -/
def evictDemoCache : List (String × TileRec) :=
  [("a", ⟨"u", true, 0, 5⟩), ("b", ⟨"u", true, 0, 1⟩), ("c", ⟨"u", true, 0, 9⟩)]

/-- Witness for C4: three distinct tiles, limit two, one entry (the
least-recently-used) evicted. -/
theorem C4_eviction_witness :
    (evictDemoCache.map Prod.fst).Nodup ∧
    evictDemoCache.length = 2 + 1 ∧ 1 ≤ 1 ∧
    ((performEviction evictDemoCache 2).length = 2 ∧
     (performEviction evictDemoCache 2).Sublist evictDemoCache ∧
     evictDemoCache.length - (performEviction evictDemoCache 2).length = 1 ∧
     (∀ e ∈ evictDemoCache, e ∉ performEviction evictDemoCache 2 →
       ∀ e' ∈ performEviction evictDemoCache 2,
         e.2.lastUsed ≤ e'.2.lastUsed)) := by
  have h1 : (evictDemoCache.map Prod.fst).Nodup := by decide
  have h2 : evictDemoCache.length = 2 + 1 := by decide
  exact ⟨h1, h2, le_refl 1, C4_eviction evictDemoCache 2 1 h1 h2 (le_refl 1)⟩

/-! ### C5: tile load failure handling -/

/-- **C5 is violated by the code** (`code_bug`).  At the failing inputs:
(a) a failing non-retina tile fires `tileerror` and clears the
loading-state entries, but the pending `tileCache` record is NOT discarded
(only the timeout path deletes it, src/Atlas.js:435-437), so the claim's
"the pending cache record for that key is discarded" is false; and
(b) for a retina layer whose non-suffixed fallback also fails, the handler
retries again on every failure (the branch tests the captured original
`url`, still containing `@2x`, src/Atlas.js:464), so the retry is not
"exactly once" and `tileerror` is never fired on that path. -/
theorem C5_error_discard_bug :
    ((onTileError pendingState "3/1/2" "u" false false).1.tileCache.lookup "3/1/2"
        = some pendingTile) ∧
    ((onTileError pendingState "3/1/2" "u" false false).1.events
        = [TileEvent.tileerror "3/1/2"]) ∧
    ((onTileError pendingState "3/1/2" "u" false false).1.loadingTiles = []) ∧
    ((onTileError pendingState "3/1/2" "u" false false).1.loadingControllers = []) ∧
    ((onTileError pendingState "3/1/2" "u@2x" true false).2 = some "u") ∧
    ((onTileError pendingState "3/1/2" "u@2x" true false).1.retinaAvailable
        = false) ∧
    ((onTileError (onTileError pendingState "3/1/2" "u@2x" true false).1
        "3/1/2" "u@2x" true false).2 = some "u") ∧
    ((onTileError (onTileError pendingState "3/1/2" "u@2x" true false).1
        "3/1/2" "u@2x" true false).1.events = []) := by
  decide

/-! ### C8: inertia termination, duration, distance -/

theorem inertiaRun_base (v dt : ℚ) (hdt : 0 < dt)
    (h : max 0 (v - INERTIA_DECEL * dt) ≤ INERTIA_STOP_SPEED) :
    inertiaRun v dt hdt = (1, v * dt, 1) := by
  rw [inertiaRun]
  dsimp only
  rw [dif_pos h]

theorem inertiaRun_step (v dt : ℚ) (hdt : 0 < dt)
    (h : ¬ max 0 (v - INERTIA_DECEL * dt) ≤ INERTIA_STOP_SPEED) :
    inertiaRun v dt hdt =
      ((inertiaRun (max 0 (v - INERTIA_DECEL * dt)) dt hdt).1 + 1,
       v * dt + (inertiaRun (max 0 (v - INERTIA_DECEL * dt)) dt hdt).2.1,
       (inertiaRun (max 0 (v - INERTIA_DECEL * dt)) dt hdt).2.2) := by
  rw [inertiaRun]
  dsimp only
  rw [dif_neg h]

/-- Every inertia run fires exactly one `moveend`. -/
theorem inertiaRun_moveends (v dt : ℚ) (hdt : 0 < dt) :
    (inertiaRun v dt hdt).2.2 = 1 := by
  induction v, dt, hdt using inertiaRun.induct with
  | case1 v dt hdt newV h =>
      rw [inertiaRun_base v dt hdt h]
  | case2 v dt hdt newV h ih =>
      rw [inertiaRun_step v dt hdt h]
      exact ih

/-- In the non-base case the speed clamp is inactive. -/
theorem inertia_newV_pos {v dt : ℚ}
    (h : ¬ max 0 (v - INERTIA_DECEL * dt) ≤ INERTIA_STOP_SPEED) :
    max 0 (v - INERTIA_DECEL * dt) = v - INERTIA_DECEL * dt := by
  have hstop : (0 : ℚ) < INERTIA_STOP_SPEED := by
    unfold INERTIA_STOP_SPEED
    norm_num
  have hnv := lt_of_not_le h
  rcases max_cases 0 (v - INERTIA_DECEL * dt) with ⟨heq, _⟩ | ⟨heq, _⟩
  · rw [heq] at hnv
    linarith
  · exact heq

/-- The number of frames is `max 1 ⌈(v - stop) / (decel·dt)⌉`, a function of
the release speed, the deceleration constant, the stop threshold and the
frame interval alone; total duration is this count times `dt`. -/
theorem inertiaRun_frames (v dt : ℚ) (hdt : 0 < dt) :
    (inertiaRun v dt hdt).1 =
      max 1 ((⌈(v - INERTIA_STOP_SPEED) / (INERTIA_DECEL * dt)⌉).toNat) := by
  induction v, dt, hdt using inertiaRun.induct with
  | case1 v dt hdt newV h =>
      rw [inertiaRun_base v dt hdt h]
      have hD' : 0 < INERTIA_DECEL * dt := by
        have : (0 : ℚ) < INERTIA_DECEL := by unfold INERTIA_DECEL; norm_num
        positivity
      have hv : v - INERTIA_DECEL * dt ≤ INERTIA_STOP_SPEED :=
        le_trans (le_max_right _ _) h
      have hratio : (v - INERTIA_STOP_SPEED) / (INERTIA_DECEL * dt) ≤ 1 := by
        rw [div_le_one hD']
        linarith
      have hceil : ⌈(v - INERTIA_STOP_SPEED) / (INERTIA_DECEL * dt)⌉ ≤ 1 := by
        rw [Int.ceil_le]
        push_cast
        exact hratio
      have htn : (⌈(v - INERTIA_STOP_SPEED) / (INERTIA_DECEL * dt)⌉).toNat ≤ 1 := by
        omega
      rw [max_eq_left htn]
  | case2 v dt hdt newV h ih =>
      rw [show newV = max 0 (v - INERTIA_DECEL * dt) from rfl] at ih
      rw [inertiaRun_step v dt hdt h, ih]
      have hD' : 0 < INERTIA_DECEL * dt := by
        have : (0 : ℚ) < INERTIA_DECEL := by unfold INERTIA_DECEL; norm_num
        positivity
      have hmax := inertia_newV_pos h
      have hv' : INERTIA_STOP_SPEED < v - INERTIA_DECEL * dt := by
        rw [← hmax]
        exact lt_of_not_le h
      have hge1 : (1 : ℚ) < (v - INERTIA_STOP_SPEED) / (INERTIA_DECEL * dt) := by
        rw [lt_div_iff₀ hD']
        linarith
      have hceil2 : 2 ≤ ⌈(v - INERTIA_STOP_SPEED) / (INERTIA_DECEL * dt)⌉ := by
        have h1 : (1 : ℤ) < ⌈(v - INERTIA_STOP_SPEED) / (INERTIA_DECEL * dt)⌉ := by
          rw [Int.lt_ceil]
          push_cast
          exact hge1
        omega
      have harg : (max 0 (v - INERTIA_DECEL * dt) - INERTIA_STOP_SPEED) /
          (INERTIA_DECEL * dt) =
          (v - INERTIA_STOP_SPEED) / (INERTIA_DECEL * dt) - 1 := by
        rw [hmax]
        field_simp
        ring
      rw [harg, Int.ceil_sub_one]
      have hc := hceil2
      rw [max_eq_right (by omega :
        1 ≤ (⌈(v - INERTIA_STOP_SPEED) / (INERTIA_DECEL * dt)⌉ - 1).toNat),
        max_eq_right (by omega :
        1 ≤ (⌈(v - INERTIA_STOP_SPEED) / (INERTIA_DECEL * dt)⌉).toNat)]
      omega

/-- Total distance closed form: `dt·(N·v - decel·dt·N(N-1)/2)` with `N` the
frame count — determined by the release speed, deceleration constant, stop
threshold and frame interval alone. -/
theorem inertiaRun_distance (v dt : ℚ) (hdt : 0 < dt) :
    (inertiaRun v dt hdt).2.1 =
      dt * (((inertiaRun v dt hdt).1 : ℚ) * v -
        INERTIA_DECEL * dt * (((inertiaRun v dt hdt).1 : ℚ) *
          (((inertiaRun v dt hdt).1 : ℚ) - 1)) / 2) := by
  induction v, dt, hdt using inertiaRun.induct with
  | case1 v dt hdt newV h =>
      rw [inertiaRun_base v dt hdt h]
      push_cast
      ring
  | case2 v dt hdt newV h ih =>
      rw [show newV = max 0 (v - INERTIA_DECEL * dt) from rfl] at ih
      rw [inertiaRun_step v dt hdt h]
      have hmax := inertia_newV_pos h
      rw [hmax] at ih ⊢
      rw [ih]
      push_cast
      ring

/-- **C8**: inertia starts only at or above the stop threshold (below it:
no frames, no distance, no `moveend`); once started it terminates (the model
is a total function) after `max 1 ⌈(v - stop)/(decel·dt)⌉` frames — so total
duration (`frames · dt`) and total distance follow closed forms determined
solely by the release speed, the deceleration constant, the stop threshold
and the frame interval — and exactly one `moveend` fires. -/
theorem C8_inertia (speed dt : ℚ) (hdt : 0 < dt) :
    (speed < INERTIA_STOP_SPEED → startInertia speed dt hdt = (0, 0, 0)) ∧
    (INERTIA_STOP_SPEED ≤ speed →
      startInertia speed dt hdt = inertiaRun speed dt hdt ∧
      (startInertia speed dt hdt).2.2 = 1 ∧
      (startInertia speed dt hdt).1 =
        max 1 ((⌈(speed - INERTIA_STOP_SPEED) / (INERTIA_DECEL * dt)⌉).toNat) ∧
      (startInertia speed dt hdt).2.1 =
        dt * (((startInertia speed dt hdt).1 : ℚ) * speed -
          INERTIA_DECEL * dt * (((startInertia speed dt hdt).1 : ℚ) *
            (((startInertia speed dt hdt).1 : ℚ) - 1)) / 2)) := by
  constructor
  · intro hlt
    unfold startInertia
    rw [if_pos hlt]
  · intro hge
    have hrun : startInertia speed dt hdt = inertiaRun speed dt hdt := by
      unfold startInertia
      rw [if_neg (not_lt.mpr hge)]
    refine ⟨hrun, ?_, ?_, ?_⟩
    · rw [hrun]
      exact inertiaRun_moveends speed dt hdt
    · rw [hrun]
      exact inertiaRun_frames speed dt hdt
    · rw [hrun]
      exact inertiaRun_distance speed dt hdt

/-- Witness for C8 at release speed `1 px/ms` and a 16 ms frame clock. -/
theorem C8_inertia_witness :
    (0 : ℚ) < 16 ∧
    (((1 : ℚ) < INERTIA_STOP_SPEED →
      startInertia 1 16 (by norm_num) = (0, 0, 0)) ∧
    (INERTIA_STOP_SPEED ≤ 1 →
      startInertia 1 16 (by norm_num) = inertiaRun 1 16 (by norm_num) ∧
      (startInertia 1 16 (by norm_num)).2.2 = 1 ∧
      (startInertia 1 16 (by norm_num)).1 =
        max 1 ((⌈((1 : ℚ) - INERTIA_STOP_SPEED) / (INERTIA_DECEL * 16)⌉).toNat) ∧
      (startInertia 1 16 (by norm_num)).2.1 =
        16 * (((startInertia 1 16 (by norm_num)).1 : ℚ) * 1 -
          INERTIA_DECEL * 16 * (((startInertia 1 16 (by norm_num)).1 : ℚ) *
            (((startInertia 1 16 (by norm_num)).1 : ℚ) - 1)) / 2))) :=
  ⟨by norm_num, C8_inertia 1 16 (by norm_num)⟩

/-! ### C9 and C10: tile URL resolution -/

/-- Concrete index evaluation used by the URL-resolution examples:
tile coordinates `x = 1`, `y = 2` at zoom `3` yield indices `(1, 2)`. -/
theorem getTileUrlIndices_one_two_three : getTileUrlIndices 1 2 3 = (1, 2) := by
  unfold getTileUrlIndices jsWrap jsRem jsTrunc
  norm_num

/-- **C9 counterexample**: `_getTileUrl` does NOT substitute a `{s}`
placeholder — applied to a template containing `{s}` (as the claim's URL
template grammar describes), `{z}`/`{x}`/`{y}` are substituted but `{s}`
survives verbatim in the produced URL; no subdomain parameter even exists in
the function. -/
theorem C9_counterexample_s_placeholder :
    getTileUrl "https://{s}.tile.openstreetmap.org/{z}/{x}/{y}.png" 1 2 3
        false RetinaMode.auto 1 true =
      "https://{s}.tile.openstreetmap.org/3/1/2.png" ∧
    containsSub (getTileUrl "https://{s}.tile.openstreetmap.org/{z}/{x}/{y}.png"
        1 2 3 false RetinaMode.auto 1 true) "{s}" = true := by
  have hurl : getTileUrl "https://{s}.tile.openstreetmap.org/{z}/{x}/{y}.png"
      1 2 3 false RetinaMode.auto 1 true =
      "https://{s}.tile.openstreetmap.org/3/1/2.png" := by
    dsimp only [getTileUrl]
    rw [getTileUrlIndices_one_two_three]
    simp only [Bool.false_and]
    decide
  exact ⟨hurl, by rw [hurl]; decide⟩

/-- **C9 (amended)**: resolving a tile URL substitutes the `{z}`, `{x}` and
`{y}` placeholders (first occurrence each) from the tile key; there is no
`{s}` substitution — the OSM subdomain is chosen once at layer construction
and baked into the template.  The `@2x` suffix is appended exactly when the
provider advertises retina support, the retina mode requests it (in the
default `auto` mode: device pixel ratio above `1.5`) and retina has not been
marked unavailable; on a failed load whose original URL carries the suffix,
the layer marks retina unavailable and retries the suffix-stripped URL. -/
theorem C9_tile_url_resolution :
    getTileUrl "https://a.tile.openstreetmap.org/{z}/{x}/{y}.png" 1 2 3 true
        RetinaMode.auto 1 true = "https://a.tile.openstreetmap.org/3/1/2.png" ∧
    getTileUrl "https://a.tile.openstreetmap.org/{z}/{x}/{y}.png" 1 2 3 true
        RetinaMode.auto 2 true =
      "https://a.tile.openstreetmap.org/3/1/2.png@2x" ∧
    getTileUrl "https://a.tile.openstreetmap.org/{z}/{x}/{y}.png" 1 2 3 true
        RetinaMode.auto 2 false =
      "https://a.tile.openstreetmap.org/3/1/2.png" ∧
    (∀ (dpr : ℚ) (avail : Bool),
      shouldRequestRetina RetinaMode.auto dpr avail = true ↔
        ((3 / 2 : ℚ) < dpr ∧ avail = true)) ∧
    (∀ (st : LayerState) (key u : String), containsSub u retinaSuffix = true →
      (onTileError st key u true false).2 = some (jsReplace u retinaSuffix "") ∧
      (onTileError st key u true false).1.retinaAvailable = false) := by
  have hb1 : shouldRequestRetina RetinaMode.auto 1 true = false := by
    simp only [shouldRequestRetina, Bool.and_true, decide_eq_false_iff_not]
    norm_num
  have hb2 : shouldRequestRetina RetinaMode.auto 2 true = true := by
    simp only [shouldRequestRetina, Bool.and_true, decide_eq_true_eq]
    norm_num
  have hb3 : shouldRequestRetina RetinaMode.auto 2 false = false := by
    simp only [shouldRequestRetina, Bool.and_false]
  refine ⟨?_, ?_, ?_, ?_, ?_⟩
  · dsimp only [getTileUrl]
    rw [getTileUrlIndices_one_two_three, hb1]
    decide
  · dsimp only [getTileUrl]
    rw [getTileUrlIndices_one_two_three, hb2]
    decide
  · dsimp only [getTileUrl]
    rw [getTileUrlIndices_one_two_three, hb3]
    decide
  · intro dpr avail
    unfold shouldRequestRetina
    simp [Bool.and_eq_true, decide_eq_true_eq]
  · intro st key u hc
    unfold onTileError
    simp [hc]

/-- Witness for the retina-fallback branch of the URL-resolution theorem at a
concrete failed URL carrying the `@2x` suffix. -/
theorem C9_tile_url_resolution_witness :
    containsSub "u@2x.png" retinaSuffix = true ∧
    (onTileError ⟨[], [], [], true, []⟩ "k" "u@2x.png" true false).2 =
      some (jsReplace "u@2x.png" retinaSuffix "") ∧
    (onTileError ⟨[], [], [], true, []⟩ "k" "u@2x.png" true
      false).1.retinaAvailable = false := by
  have h : containsSub "u@2x.png" retinaSuffix = true := by decide
  exact ⟨h,
    (C9_tile_url_resolution.2.2.2.2 ⟨[], [], [], true, []⟩ "k" "u@2x.png" h).1,
    (C9_tile_url_resolution.2.2.2.2 ⟨[], [], [], true, []⟩ "k" "u@2x.png" h).2⟩

/-- **C10**: for every integer zoom `z ≥ 0` and all (possibly negative or
fractional) tile coordinates, the generated indices are in range: the x
index is `⌊x⌋` wrapped modulo `2^z` into `[0, 2^z)` and the y index is
clamped into `[0, 2^z - 1]`. -/
theorem C10_tile_indices_in_range (x y : ℚ) (z : ℕ) :
    0 ≤ (getTileUrlIndices x y z).1 ∧
    (getTileUrlIndices x y z).1 < 2 ^ z ∧
    (getTileUrlIndices x y z).1 = ⌊x⌋ % (2 ^ z : ℤ) ∧
    0 ≤ (getTileUrlIndices x y z).2 ∧
    (getTileUrlIndices x y z).2 ≤ (2 ^ z : ℤ) - 1 := by
  have hs : (0 : ℚ) < 2 ^ z := by positivity
  have hfst : (getTileUrlIndices x y z).1 = ⌊jsWrap x ((2 : ℚ) ^ z)⌋ := rfl
  have hsnd : (getTileUrlIndices x y z).2 =
      max 0 (min ((2 ^ z : ℤ) - 1) ⌊y⌋) := rfl
  have h0 : 0 ≤ ⌊jsWrap x ((2 : ℚ) ^ z)⌋ :=
    Int.floor_nonneg.mpr (jsWrap_nonneg x hs)
  have hlt : ⌊jsWrap x ((2 : ℚ) ^ z)⌋ < 2 ^ z := by
    rw [Int.floor_lt]
    calc jsWrap x ((2 : ℚ) ^ z) < (2 : ℚ) ^ z := jsWrap_lt x hs
    _ = ((2 ^ z : ℤ) : ℚ) := by push_cast; ring
  have hA : ⌊jsWrap x ((2 : ℚ) ^ z)⌋ =
      ⌊x⌋ - 2 ^ z * ⌊x / (2 : ℚ) ^ z⌋ := by
    have hw := jsWrap_eq x hs
    have hcast : ((2 : ℚ) ^ z) * (⌊x / (2 : ℚ) ^ z⌋ : ℚ) =
        (((2 ^ z : ℤ) * ⌊x / (2 : ℚ) ^ z⌋ : ℤ) : ℚ) := by
      push_cast
      ring
    rw [hw, hcast, Int.floor_sub_int]
  have hmod : ⌊jsWrap x ((2 : ℚ) ^ z)⌋ = ⌊x⌋ % (2 ^ z : ℤ) := by
    have h1 : (⌊x⌋ - 2 ^ z * ⌊x / (2 : ℚ) ^ z⌋) % (2 ^ z : ℤ) =
        ⌊x⌋ % (2 ^ z : ℤ) := by
      conv_rhs => rw [show (⌊x⌋ : ℤ) =
        (⌊x⌋ - 2 ^ z * ⌊x / (2 : ℚ) ^ z⌋) + 2 ^ z * ⌊x / (2 : ℚ) ^ z⌋ by ring]
      rw [Int.add_mul_emod_self_left]
    calc ⌊jsWrap x ((2 : ℚ) ^ z)⌋
        = ⌊jsWrap x ((2 : ℚ) ^ z)⌋ % (2 ^ z : ℤ) :=
          (Int.emod_eq_of_lt h0 hlt).symm
    _ = (⌊x⌋ - 2 ^ z * ⌊x / (2 : ℚ) ^ z⌋) % (2 ^ z : ℤ) := by rw [hA]
    _ = ⌊x⌋ % (2 ^ z : ℤ) := h1
  have hone : (1 : ℤ) ≤ 2 ^ z := by
    exact_mod_cast Nat.one_le_pow z 2 (by norm_num)
  refine ⟨?_, ?_, ?_, ?_, ?_⟩
  · rw [hfst]
    exact h0
  · rw [hfst]
    exact hlt
  · rw [hfst]
    exact hmod
  · rw [hsnd]
    exact le_max_left _ _
  · rw [hsnd]
    exact max_le (by linarith) (min_le_left _ _)

/-! ### C1 counterexample: anchored zoom is NOT invariant when the latitude
clamp fires.  Concrete scenario: canvas 1024×1024, state center `(0, 0)`,
zoom `3`, bearing `0`; anchor pixel `(512, 0)` (top middle); zoom out to
zoom `0` (within the layer bounds `[0, 19]`) with bearing `0`.  The new
center computed by `applyZoomRotateAbout` falls far below the Mercator
limit, is clamped to `-85.05112878`, and the geographic point under the
anchor pixel jumps from ≈66.5°N to the clamped ceiling `85.05112878`. -/

noncomputable section C1Numeric

open Real

/-- The latitude under the anchor pixel before the zoom-out: the anchor tile
point is `(4, 2)` at zoom 3, whose projected ordinate is `π·R/2`. -/
def lam0 : ℝ := (2 * Real.arctan (Real.exp (π / 2)) - π / 2) * RAD2DEG

/-- The Mercator ordinate (divided by the earth radius) of the clamp
latitude `85.05112878`. -/
def yMerc : ℝ :=
  Real.log ((1 + Real.sin (85.05112878 * DEG2RAD)) /
    (1 - Real.sin (85.05112878 * DEG2RAD))) / 2

theorem rot_ang_zero (x y : ℝ) : rot x y (-0) = (x, y) := by
  unfold rot
  norm_num

theorem exp_nat_ge_two_pow (n : ℕ) : (2 : ℝ) ^ n ≤ Real.exp n := by
  have h1 : Real.exp ((n : ℝ)) = Real.exp 1 ^ n := by
    rw [← Real.exp_nat_mul]
    norm_num
  rw [h1]
  exact pow_le_pow_left₀ (by norm_num) (by linarith [Real.exp_one_gt_d9]) n

theorem arctan_exp_pi_half_le :
    Real.arctan (Real.exp (π / 2)) ≤ π / 2 - π / 60 := by
  have hπ3 : (3 : ℝ) < π := Real.pi_gt_three
  have hπ4 : π < 3.15 := Real.pi_lt_d2
  have hπ0 : (0 : ℝ) < π := by linarith
  have hv0 : (0 : ℝ) < π / 60 := by positivity
  have hvU : π / 60 ≤ 0.0525 := by linarith
  have hvlt : π / 60 < π / 2 := by linarith
  have hcosl : 1 - (π / 60) ^ 2 / 2 ≤ Real.cos (π / 60) :=
    Real.one_sub_sq_div_two_le_cos
  have hcospos : (0 : ℝ) < 1 - (π / 60) ^ 2 / 2 := by nlinarith
  have htan : Real.tan (π / 60) ≤ (π / 60) / (1 - (π / 60) ^ 2 / 2) := by
    rw [Real.tan_eq_sin_div_cos]
    exact div_le_div₀ hv0.le (Real.sin_le hv0.le) hcospos hcosl
  have htanU : Real.tan (π / 60) ≤ 0.0526 := by
    refine htan.trans ?_
    rw [div_le_iff₀ hcospos]
    nlinarith [mul_nonneg (sub_nonneg.mpr hvU) hv0.le]
  have hexp2 : Real.exp (π / 2) ≤ 7.39 := by
    have h1 : Real.exp (π / 2) ≤ Real.exp 2 := Real.exp_le_exp.mpr (by linarith)
    have h2 : Real.exp 2 = Real.exp 1 * Real.exp 1 := by
      rw [← Real.exp_add]
      norm_num
    nlinarith [Real.exp_one_lt_d9, Real.exp_pos 1]
  have hexpl : (0.0526 : ℝ) ≤ Real.exp (-(π / 2)) := by
    rw [Real.exp_neg]
    calc (0.0526 : ℝ) ≤ (7.39 : ℝ)⁻¹ := by norm_num
    _ ≤ (Real.exp (π / 2))⁻¹ := inv_anti₀ (Real.exp_pos _) hexp2
  have harc : π / 60 ≤ Real.arctan (Real.exp (-(π / 2))) := by
    have h1 : Real.tan (π / 60) ≤ Real.exp (-(π / 2)) := htanU.trans hexpl
    have h2 := Real.arctan_strictMono.monotone h1
    rwa [Real.arctan_tan (by linarith) hvlt] at h2
  have hinv := Real.arctan_inv_of_pos (Real.exp_pos (π / 2))
  rw [← Real.exp_neg] at hinv
  linarith

theorem arctan_exp_pi_half_ge : π / 4 ≤ Real.arctan (Real.exp (π / 2)) := by
  have h : (1 : ℝ) ≤ Real.exp (π / 2) := by
    rw [show (1 : ℝ) = Real.exp 0 from Real.exp_zero.symm]
    exact Real.exp_le_exp.mpr (by positivity)
  have h2 := Real.arctan_strictMono.monotone h
  rwa [Real.arctan_one] at h2

theorem lam0_nonneg : 0 ≤ lam0 := by
  have h := arctan_exp_pi_half_ge
  have hπ0 : (0 : ℝ) < π := Real.pi_pos
  unfold lam0 RAD2DEG
  exact mul_nonneg (by linarith) (by positivity)

theorem lam0_le_84 : lam0 ≤ 84 := by
  have h := arctan_exp_pi_half_le
  have hπ0 : (0 : ℝ) < π := Real.pi_pos
  have hne : π ≠ 0 := Real.pi_ne_zero
  unfold lam0 RAD2DEG
  have h2 : 2 * Real.arctan (Real.exp (π / 2)) - π / 2 ≤ 84 * (π / 180) := by
    linarith
  calc (2 * Real.arctan (Real.exp (π / 2)) - π / 2) * (180 / π)
      ≤ (84 * (π / 180)) * (180 / π) :=
        mul_le_mul_of_nonneg_right h2 (by positivity)
  _ = 84 := by field_simp

theorem anchorTile_c1 :
    anchorTile 1024 1024 ⟨⟨0, 0⟩, 3, 0⟩ 512 0 = ⟨4, 2⟩ := by
  dsimp only [anchorTile]
  have hz : ⌊(3 : ℝ)⌋ = (3 : ℤ) := by norm_num
  rw [hz]
  have he : (3 : ℝ) - ((3 : ℤ) : ℝ) = 0 := by norm_num
  rw [he, Real.rpow_zero, latLngToTile_zero, rot_ang_zero]
  rw [Pt.mk.injEq]
  unfold TILE_SIZE
  constructor
  · norm_num
  · norm_num

theorem tileToLatLng_four_two : tileToLatLng 4 2 3 = ⟨lam0, 0⟩ := by
  have hπ : π ≠ 0 := Real.pi_ne_zero
  have hR : EARTH_RADIUS ≠ 0 := by unfold EARTH_RADIUS; norm_num
  dsimp only [tileToLatLng]
  have hpt : (⟨(4 : ℝ) / ((2 : ℝ) ^ (3 : ℤ)) * 2 * π * EARTH_RADIUS -
      π * EARTH_RADIUS,
      π * EARTH_RADIUS - (2 : ℝ) / ((2 : ℝ) ^ (3 : ℤ)) * 2 * π *
      EARTH_RADIUS⟩ : Pt) = ⟨0, EARTH_RADIUS * (π / 2)⟩ := by
    have hp : ((2 : ℝ)) ^ (3 : ℤ) = 8 := by norm_num
    rw [Pt.mk.injEq, hp]
    constructor
    · ring
    · ring
  rw [hpt]
  dsimp only [unproject]
  rw [LatLng.mk.injEq]
  constructor
  · have harg : EARTH_RADIUS * (π / 2) / EARTH_RADIUS = π / 2 :=
      mul_div_cancel_left₀ _ hR
    rw [harg]
    rfl
  · rw [zero_div, zero_mul]

theorem screenToLatLon_c1_before :
    screenToLatLon 1024 1024 ⟨⟨0, 0⟩, 3, 0⟩ 512 0 = ⟨lam0, 0⟩ := by
  dsimp only [screenToLatLon]
  rw [anchorTile_c1]
  have hz : ⌊(3 : ℝ)⌋ = (3 : ℤ) := by norm_num
  rw [hz]
  dsimp only
  rw [tileToLatLng_four_two]
  rw [LatLng.mk.injEq]
  constructor
  · exact clampLatitude_eq_self (by linarith [lam0_nonneg])
      (by linarith [lam0_le_84])
  · exact wrapLongitude_zero

theorem latLngToTile_lam0 : latLngToTile ⟨lam0, 0⟩ 0 = ⟨1 / 2, 1 / 4⟩ := by
  have hπ : π ≠ 0 := Real.pi_ne_zero
  have hR : EARTH_RADIUS ≠ 0 := by unfold EARTH_RADIUS; norm_num
  dsimp only [latLngToTile, project]
  have hclamp : max (min MAX_LATITUDE lam0) (-MAX_LATITUDE) = lam0 := by
    rw [project_clamp_eq]
    exact clampLatitude_eq_self (by linarith [lam0_nonneg])
      (by linarith [lam0_le_84])
  rw [hclamp]
  have hrad : lam0 * DEG2RAD = 2 * Real.arctan (Real.exp (π / 2)) - π / 2 := by
    unfold lam0 RAD2DEG DEG2RAD
    field_simp
    ring
  rw [hrad]
  have hlog := mercator_log_sin_eq (π / 2)
  rw [mul_div_assoc, hlog]
  rw [Pt.mk.injEq]
  constructor
  · rw [zpow_zero]
    field_simp
    ring
  · rw [zpow_zero]
    field_simp
    ring

theorem azrCtNew_c1 :
    azrCtNew 1024 1024 0 19 ⟨⟨0, 0⟩, 3, 0⟩ 512 0 0 0 = ⟨1 / 2, 9 / 4⟩ := by
  dsimp only [azrCtNew]
  have hnz : max (0 : ℝ) (min 19 0) = 0 := by norm_num
  rw [hnz, Int.floor_zero]
  have he : (0 : ℝ) - ((0 : ℤ) : ℝ) = 0 := by norm_num
  rw [he, Real.rpow_zero, screenToLatLon_c1_before, latLngToTile_lam0,
    rot_ang_zero]
  rw [Pt.mk.injEq]
  unfold TILE_SIZE
  constructor
  · norm_num
  · norm_num

theorem azrNewCenterRaw_c1 :
    azrNewCenterRaw 1024 1024 0 19 ⟨⟨0, 0⟩, 3, 0⟩ 512 0 0 0 =
      ⟨(2 * Real.arctan (Real.exp (-(7 * π / 2))) - π / 2) * RAD2DEG, 0⟩ := by
  have hπ : π ≠ 0 := Real.pi_ne_zero
  have hR : EARTH_RADIUS ≠ 0 := by unfold EARTH_RADIUS; norm_num
  dsimp only [azrNewCenterRaw]
  rw [azrCtNew_c1]
  have hnz : max (0 : ℝ) (min 19 0) = 0 := by norm_num
  rw [hnz, Int.floor_zero]
  dsimp only [tileToLatLng]
  have hpt : (⟨(1 : ℝ) / 2 / ((2 : ℝ) ^ (0 : ℤ)) * 2 * π * EARTH_RADIUS -
      π * EARTH_RADIUS,
      π * EARTH_RADIUS - (9 : ℝ) / 4 / ((2 : ℝ) ^ (0 : ℤ)) * 2 * π *
      EARTH_RADIUS⟩ : Pt) = ⟨0, EARTH_RADIUS * (-(7 * π / 2))⟩ := by
    rw [Pt.mk.injEq, zpow_zero]
    constructor
    · ring
    · ring
  rw [hpt]
  dsimp only [unproject]
  rw [LatLng.mk.injEq]
  constructor
  · have harg : EARTH_RADIUS * (-(7 * π / 2)) / EARTH_RADIUS = -(7 * π / 2) :=
      mul_div_cancel_left₀ _ hR
    rw [harg]
  · rw [zero_div, zero_mul]

theorem raw_lat_le_neg_max :
    (2 * Real.arctan (Real.exp (-(7 * π / 2))) - π / 2) * RAD2DEG ≤
      -85.05112878 := by
  have hπ3 : (3 : ℝ) < π := Real.pi_gt_three
  have hπ4 : π < 3.15 := Real.pi_lt_d2
  have hπ0 : (0 : ℝ) < π := by linarith
  have hne : π ≠ 0 := Real.pi_ne_zero
  have hXle : Real.exp (-(7 * π / 2)) ≤ 1 / 1024 := by
    have h4 : (1024 : ℝ) ≤ Real.exp (10 : ℝ) := by
      have h := exp_nat_ge_two_pow 10
      have hc : ((10 : ℕ) : ℝ) = (10 : ℝ) := by norm_num
      rw [hc] at h
      have h2 : ((2 : ℝ)) ^ (10 : ℕ) = 1024 := by norm_num
      linarith
    have h5 : Real.exp (-(7 * π / 2)) ≤ Real.exp (-(10 : ℝ)) :=
      Real.exp_le_exp.mpr (by linarith)
    have h6 : Real.exp (-(10 : ℝ)) ≤ 1 / 1024 := by
      rw [Real.exp_neg]
      calc (Real.exp (10 : ℝ))⁻¹ ≤ (1024 : ℝ)⁻¹ := inv_anti₀ (by norm_num) h4
      _ = 1 / 1024 := by norm_num
    linarith
  have hvpos : (0 : ℝ) < π * 4.94887122 / 360 := by positivity
  have hvlt : π * 4.94887122 / 360 < π / 2 := by linarith
  have htv : π * 4.94887122 / 360 < Real.tan (π * 4.94887122 / 360) :=
    Real.lt_tan hvpos hvlt
  have hXv : Real.exp (-(7 * π / 2)) ≤ Real.tan (π * 4.94887122 / 360) := by
    have h1 : (1 : ℝ) / 1024 ≤ π * 4.94887122 / 360 := by linarith
    linarith
  have harct : Real.arctan (Real.exp (-(7 * π / 2))) ≤ π * 4.94887122 / 360 := by
    have h1 := Real.arctan_strictMono.monotone hXv
    rwa [Real.arctan_tan (by linarith) hvlt] at h1
  have key : 2 * Real.arctan (Real.exp (-(7 * π / 2))) - π / 2 ≤
      -85.05112878 * (π / 180) := by linarith
  unfold RAD2DEG
  calc (2 * Real.arctan (Real.exp (-(7 * π / 2))) - π / 2) * (180 / π)
      ≤ (-85.05112878 * (π / 180)) * (180 / π) :=
        mul_le_mul_of_nonneg_right key (by positivity)
  _ = -85.05112878 := by
      field_simp
      ring

theorem center_after_c1 :
    (applyZoomRotateAbout 1024 1024 0 19 ⟨⟨0, 0⟩, 3, 0⟩ 512 0 0 0).center =
      ⟨-85.05112878, 0⟩ := by
  show LatLng.mk
    (clampLatitude (azrNewCenterRaw 1024 1024 0 19 ⟨⟨0, 0⟩, 3, 0⟩ 512 0 0 0).lat)
    (wrapLongitude (azrNewCenterRaw 1024 1024 0 19 ⟨⟨0, 0⟩, 3, 0⟩ 512 0 0 0).lon)
    = ⟨-85.05112878, 0⟩
  rw [azrNewCenterRaw_c1]
  rw [LatLng.mk.injEq]
  constructor
  · show clampLatitude
      ((2 * Real.arctan (Real.exp (-(7 * π / 2))) - π / 2) * RAD2DEG) =
      -85.05112878
    have h := raw_lat_le_neg_max
    unfold clampLatitude
    rw [min_eq_right (by linarith :
      (2 * Real.arctan (Real.exp (-(7 * π / 2))) - π / 2) * RAD2DEG ≤
        85.05112878)]
    exact max_eq_left h
  · exact wrapLongitude_zero

theorem one_sub_sinM_pos : 0 < 1 - Real.sin (85.05112878 * DEG2RAD) := by
  have h := one_sub_sin_clamp_pos 85.05112878
  have hclamp : max (min MAX_LATITUDE 85.05112878) (-MAX_LATITUDE) =
      (85.05112878 : ℝ) := by
    unfold MAX_LATITUDE
    norm_num
  rwa [hclamp] at h

theorem sinM_pos : 0 < Real.sin (85.05112878 * DEG2RAD) := by
  have hπ3 : (3 : ℝ) < π := Real.pi_gt_three
  have hπ0 : (0 : ℝ) < π := by linarith
  apply Real.sin_pos_of_pos_of_lt_pi
  · unfold DEG2RAD
    positivity
  · unfold DEG2RAD
    nlinarith

theorem one_sub_sinM_lb :
    (33 : ℝ) / 10000 ≤ 1 - Real.sin (85.05112878 * DEG2RAD) := by
  have hπ3 : (3 : ℝ) < π := Real.pi_gt_three
  have hπ4 : π < 3.15 := Real.pi_lt_d2
  have hπ0 : (0 : ℝ) < π := by linarith
  have hsin : Real.sin (85.05112878 * DEG2RAD) =
      Real.cos (2 * (π * 4.94887122 / 360)) := by
    rw [← Real.cos_pi_div_two_sub]
    congr 1
    unfold DEG2RAD
    ring
  rw [hsin]
  have hcos2 : Real.cos (2 * (π * 4.94887122 / 360)) =
      1 - 2 * Real.sin (π * 4.94887122 / 360) ^ 2 := by
    have h1 := Real.cos_two_mul (π * 4.94887122 / 360)
    have h2 := Real.sin_sq_add_cos_sq (π * 4.94887122 / 360)
    linarith
  rw [hcos2]
  have hu0 : (0 : ℝ) < π * 4.94887122 / 360 := by positivity
  have huU : π * 4.94887122 / 360 ≤ 0.0434 := by linarith
  have huL : (0.0412 : ℝ) ≤ π * 4.94887122 / 360 := by linarith
  have hu1 : π * 4.94887122 / 360 ≤ 1 := by linarith
  have hsin_gt := Real.sin_gt_sub_cube hu0 hu1
  have hcube : (π * 4.94887122 / 360) ^ 3 ≤ (0.0434 : ℝ) ^ 3 :=
    pow_le_pow_left₀ hu0.le huU 3
  have hsin_lb : (0.0411 : ℝ) ≤ Real.sin (π * 4.94887122 / 360) := by
    nlinarith
  nlinarith [sq_nonneg (Real.sin (π * 4.94887122 / 360) - 0.0411)]

theorem yMerc_le_two_pi : yMerc ≤ 2 * π := by
  have hπ3 : (3 : ℝ) < π := Real.pi_gt_three
  have hπ0 : (0 : ℝ) < π := by linarith
  have hs1 := one_sub_sinM_pos
  have hslb := one_sub_sinM_lb
  have hsle : Real.sin (85.05112878 * DEG2RAD) ≤ 1 := Real.sin_le_one _
  have hsp := sinM_pos
  have hratio_pos : 0 < (1 + Real.sin (85.05112878 * DEG2RAD)) /
      (1 - Real.sin (85.05112878 * DEG2RAD)) :=
    div_pos (by linarith) hs1
  have hratio_le : (1 + Real.sin (85.05112878 * DEG2RAD)) /
      (1 - Real.sin (85.05112878 * DEG2RAD)) ≤ 650 := by
    rw [div_le_iff₀ hs1]
    linarith
  have hexp12 : (650 : ℝ) ≤ Real.exp (4 * π) := by
    have h1 : (650 : ℝ) ≤ 2 ^ (12 : ℕ) := by norm_num
    have h2 := exp_nat_ge_two_pow 12
    have h3 : Real.exp ((12 : ℕ) : ℝ) ≤ Real.exp (4 * π) :=
      Real.exp_le_exp.mpr (by push_cast; linarith)
    linarith
  have hlog : Real.log ((1 + Real.sin (85.05112878 * DEG2RAD)) /
      (1 - Real.sin (85.05112878 * DEG2RAD))) ≤ 4 * π := by
    have h1 := Real.log_le_log hratio_pos (hratio_le.trans hexp12)
    rwa [Real.log_exp] at h1
  unfold yMerc
  linarith

theorem latLngToTile_negmax :
    latLngToTile ⟨-85.05112878, 0⟩ 0 = ⟨1 / 2, (π + yMerc) / (2 * π)⟩ := by
  have hπ : π ≠ 0 := Real.pi_ne_zero
  have hR : EARTH_RADIUS ≠ 0 := by unfold EARTH_RADIUS; norm_num
  dsimp only [latLngToTile, project]
  have hclamp : max (min MAX_LATITUDE (-85.05112878)) (-MAX_LATITUDE) =
      (-85.05112878 : ℝ) := by
    unfold MAX_LATITUDE
    norm_num
  rw [hclamp]
  have hsin : Real.sin (-85.05112878 * DEG2RAD) =
      -Real.sin (85.05112878 * DEG2RAD) := by
    rw [show (-85.05112878 : ℝ) * DEG2RAD = -(85.05112878 * DEG2RAD) by ring,
      Real.sin_neg]
  rw [hsin]
  have hlog : Real.log ((1 + -Real.sin (85.05112878 * DEG2RAD)) /
      (1 - -Real.sin (85.05112878 * DEG2RAD))) = -(2 * yMerc) := by
    have harg : (1 + -Real.sin (85.05112878 * DEG2RAD)) /
        (1 - -Real.sin (85.05112878 * DEG2RAD)) =
        ((1 + Real.sin (85.05112878 * DEG2RAD)) /
          (1 - Real.sin (85.05112878 * DEG2RAD)))⁻¹ := by
      rw [inv_div]
      ring
    rw [harg, Real.log_inv]
    unfold yMerc
    ring
  rw [hlog]
  rw [Pt.mk.injEq]
  constructor
  · rw [zpow_zero]
    field_simp
    ring
  · rw [zpow_zero]
    field_simp
    ring

theorem anchorTile_c1_after :
    anchorTile 1024 1024
      (applyZoomRotateAbout 1024 1024 0 19 ⟨⟨0, 0⟩, 3, 0⟩ 512 0 0 0) 512 0 =
      ⟨1 / 2, (π + yMerc) / (2 * π) - 2⟩ := by
  have hzoom :
      (applyZoomRotateAbout 1024 1024 0 19 ⟨⟨0, 0⟩, 3, 0⟩ 512 0 0 0).zoom =
        (0 : ℝ) := by
    show max (0 : ℝ) (min 19 0) = 0
    norm_num
  have hbear :
      (applyZoomRotateAbout 1024 1024 0 19 ⟨⟨0, 0⟩, 3, 0⟩ 512 0 0 0).bearing =
        (0 : ℝ) := by
    show normalizeAngle 0 = 0
    exact normalizeAngle_zero
  dsimp only [anchorTile]
  rw [hzoom, hbear, center_after_c1, Int.floor_zero]
  have he : (0 : ℝ) - ((0 : ℤ) : ℝ) = 0 := by norm_num
  rw [he, Real.rpow_zero, latLngToTile_negmax, rot_ang_zero]
  rw [Pt.mk.injEq]
  unfold TILE_SIZE
  constructor
  · norm_num
  · norm_num
    ring

theorem after_lat_raw_ge :
    (85.05112878 : ℝ) ≤
      (2 * Real.arctan (Real.exp (4 * π - yMerc)) - π / 2) * RAD2DEG := by
  have hπ3 : (3 : ℝ) < π := Real.pi_gt_three
  have hπ0 : (0 : ℝ) < π := by linarith
  have hne : π ≠ 0 := Real.pi_ne_zero
  have hθ1 : -(π / 2) < 85.05112878 * DEG2RAD := by
    unfold DEG2RAD
    nlinarith
  have hθ2 : 85.05112878 * DEG2RAD < π / 2 := by
    unfold DEG2RAD
    nlinarith
  have hmerc := mercator_arctan_exp_eq hθ1 hθ2
  have hyM : Real.log ((1 + Real.sin (85.05112878 * DEG2RAD)) /
      (1 - Real.sin (85.05112878 * DEG2RAD))) / 2 = yMerc := rfl
  rw [hyM] at hmerc
  have hmono : Real.arctan (Real.exp yMerc) ≤
      Real.arctan (Real.exp (4 * π - yMerc)) := by
    apply Real.arctan_strictMono.monotone
    apply Real.exp_le_exp.mpr
    have := yMerc_le_two_pi
    linarith
  have key : 85.05112878 * DEG2RAD ≤
      2 * Real.arctan (Real.exp (4 * π - yMerc)) - π / 2 := by
    rw [← hmerc]
    linarith
  unfold DEG2RAD at key
  unfold RAD2DEG
  have h2 : (85.05112878 * (π / 180)) * (180 / π) ≤
      (2 * Real.arctan (Real.exp (4 * π - yMerc)) - π / 2) * (180 / π) :=
    mul_le_mul_of_nonneg_right key (by positivity)
  have h3 : (85.05112878 : ℝ) * (π / 180) * (180 / π) = 85.05112878 := by
    field_simp
  linarith

theorem screenToLatLon_c1_after_lat :
    (screenToLatLon 1024 1024
      (applyZoomRotateAbout 1024 1024 0 19 ⟨⟨0, 0⟩, 3, 0⟩ 512 0 0 0) 512 0).lat =
      85.05112878 := by
  have hπ : π ≠ 0 := Real.pi_ne_zero
  have hR : EARTH_RADIUS ≠ 0 := by unfold EARTH_RADIUS; norm_num
  have hzoom :
      (applyZoomRotateAbout 1024 1024 0 19 ⟨⟨0, 0⟩, 3, 0⟩ 512 0 0 0).zoom =
        (0 : ℝ) := by
    show max (0 : ℝ) (min 19 0) = 0
    norm_num
  dsimp only [screenToLatLon]
  rw [anchorTile_c1_after, hzoom, Int.floor_zero]
  dsimp only
  have hll : (tileToLatLng (1 / 2) ((π + yMerc) / (2 * π) - 2) 0).lat =
      (2 * Real.arctan (Real.exp (4 * π - yMerc)) - π / 2) * RAD2DEG := by
    dsimp only [tileToLatLng, unproject]
    have harg : π * EARTH_RADIUS -
        ((π + yMerc) / (2 * π) - 2) / ((2 : ℝ) ^ (0 : ℤ)) * 2 * π *
          EARTH_RADIUS = EARTH_RADIUS * (4 * π - yMerc) := by
      rw [zpow_zero]
      field_simp
      ring
    rw [harg]
    have harg2 : EARTH_RADIUS * (4 * π - yMerc) / EARTH_RADIUS =
        4 * π - yMerc := mul_div_cancel_left₀ _ hR
    rw [harg2]
  rw [hll]
  have h := after_lat_raw_ge
  unfold clampLatitude
  rw [min_eq_left h]
  exact max_eq_right (by norm_num)

/-- **C1 counterexample**: the anchored-zoom invariance fails in general.
With a 1024×1024 canvas, state center `(0, 0)` at zoom `3` bearing `0`,
anchor pixel `(512, 0)`, and a zoom-out to zoom `0` (inside the layer's
`[0, 19]` bounds) with target bearing `0`, the latitude under the anchor
changes by more than a degree — far beyond the claimed `1e-6` tolerance —
because `applyZoomRotateAbout` clamps the new center latitude to
`-85.05112878`. -/
theorem C1_counterexample :
    (1e-6 : ℝ) <
      |(screenToLatLon 1024 1024
          (applyZoomRotateAbout 1024 1024 0 19 ⟨⟨0, 0⟩, 3, 0⟩ 512 0 0 0)
          512 0).lat -
        (screenToLatLon 1024 1024 (⟨⟨0, 0⟩, 3, 0⟩ : View) 512 0).lat| := by
  rw [screenToLatLon_c1_after_lat]
  have hb : (screenToLatLon 1024 1024 (⟨⟨0, 0⟩, 3, 0⟩ : View) 512 0).lat =
      lam0 := by
    rw [screenToLatLon_c1_before]
  rw [hb, abs_of_pos (by linarith [lam0_le_84] : (0 : ℝ) < 85.05112878 - lam0)]
  have h1 := lam0_le_84
  have h2 : (1e-6 : ℝ) = 1 / 1000000 := by norm_num
  linarith

end C1Numeric

end Atlas
